import Mathlib

/-!
Verification development for the Gmail fetch-and-parse pipeline
(AsyncGmailClient.parse_message, extract_text_from_payload, get_header_value,
fetch_gmail_data_async from agent.py).

The embedding models raw JSON payloads as a JVal tree and translates the
Python code point by point, including its dynamic failure modes: attribute
access on non-dicts, int() parse failures, and the bare except around
base64 decoding.  Fallible code returns Except PyErr.
-/

/-- Python exception kinds that the translated code can raise. -/
inductive PyErr where
  | attributeError
  | typeError
  | keyError
  | valueError
deriving DecidableEq

/-- JSON-like values, the shape of raw API payloads. -/
inductive JVal where
  | null
  | bool (b : Bool)
  | num (n : Int)
  | str (s : String)
  | arr (xs : List JVal)
  | obj (kvs : List (String × JVal))

/-- Python truthiness of a value. -/
def JVal.truthy : JVal → Bool
  | .null => false
  | .bool b => b
  | .num n => n != 0
  | .str s => !s.isEmpty
  | .arr xs => !xs.isEmpty
  | .obj kvs => !kvs.isEmpty

/-- Does the Python equality test v == s hold, for a string literal s?
It is true exactly when v is an equal str (no cross-type equality here). -/
def JVal.isStrEq : JVal → String → Bool
  | .str t, s => t == s
  | _, _ => false

def JVal.isStrB : JVal → Bool
  | .str _ => true
  | _ => false

def JVal.isArrB : JVal → Bool
  | .arr _ => true
  | _ => false

def JVal.isObjB : JVal → Bool
  | .obj _ => true
  | _ => false

/-- First-match lookup in a dict modelled as an association list. -/
def dictLookup (kvs : List (String × JVal)) (k : String) : Option JVal :=
  match kvs.find? (fun kv => kv.fst == k) with
  | some kv => some kv.snd
  | none => none

/-- Python dict.get(k, d). -/
def dictGetD (kvs : List (String × JVal)) (k : String) (d : JVal) : JVal :=
  (dictLookup kvs k).getD d

/-- Python v.get(k, d): works on dicts, raises AttributeError otherwise. -/
def JVal.get : JVal → String → JVal → Except PyErr JVal
  | .obj kvs, k, d => .ok (dictGetD kvs k d)
  | _, _, _ => .error .attributeError

/-- Python iteration (for x in v): lists yield elements, strings yield
one-character strings, dicts yield their keys; other values raise TypeError. -/
def pyIter : JVal → Except PyErr (List JVal)
  | .arr xs => .ok xs
  | .str s => .ok (s.data.map fun c => .str (String.mk [c]))
  | .obj kvs => .ok (kvs.map fun kv => .str kv.fst)
  | _ => .error .typeError

/-- Contiguous substring test on character lists. -/
def infixCheck (pat : List Char) : List Char → Bool
  | [] => pat.isEmpty
  | c :: rest => pat.isPrefixOf (c :: rest) || infixCheck pat rest

/-- Python membership test (k in v) for a string k: key test on dicts,
substring test on strings, element test on lists; TypeError otherwise. -/
def pyContains (v : JVal) (k : String) : Except PyErr Bool :=
  match v with
  | .obj kvs => .ok (dictLookup kvs k).isSome
  | .str s => .ok (infixCheck k.data s.data)
  | .arr xs => .ok (xs.any fun x => x.isStrEq k)
  | _ => .error .typeError

/-- Python subscription v[k] for a string key: dict lookup (KeyError when
missing); strings and lists require integer indices, hence TypeError. -/
def pySubscript (v : JVal) (k : String) : Except PyErr JVal :=
  match v with
  | .obj kvs =>
    match dictLookup kvs k with
    | some x => .ok x
    | none => .error .keyError
  | _ => .error .typeError

/-- ASCII case folding of one character, modelling str.lower on the
ASCII range that header names use. -/
def charLower (c : Char) : Char :=
  if 65 ≤ c.toNat ∧ c.toNat ≤ 90 then Char.ofNat (c.toNat + 32) else c

/-- ASCII case folding of a string, modelling str.lower. -/
def strLower (s : String) : String :=
  String.mk (s.data.map charLower)

/-- Python v.lower(): only strings have it. -/
def pyLower : JVal → Except PyErr String
  | .str s => .ok (strLower s)
  | _ => .error .attributeError

/-- Value of a base64 character after the urlsafe translation of minus to
plus and underscore to slash; none for characters outside the alphabet. -/
def b64CharVal (c : Char) : Option Nat :=
  let n := c.toNat
  if 65 ≤ n ∧ n ≤ 90 then some (n - 65)
  else if 97 ≤ n ∧ n ≤ 122 then some (n - 97 + 26)
  else if 48 ≤ n ∧ n ≤ 57 then some (n - 48 + 52)
  else if c = '+' ∨ c = '-' then some 62
  else if c = '/' ∨ c = '_' then some 63
  else none

/-- The three bytes of a full 24-bit base64 quad. -/
def bytesOfQuad (x : Nat) : List Nat :=
  [x / 65536, x / 256 % 256, x % 256]

/-- The bytes already determined by a quad cut short by padding after
q data characters holding the accumulated value buf. -/
def bytesOfTail (q : Nat) (buf : Nat) : List Nat :=
  if q = 2 then [buf / 16]
  else if q = 3 then [buf / 1024, buf / 4 % 256]
  else []

/-- Model of binascii.a2b_base64 in its default non-strict mode, with the
urlsafe character translation folded into b64CharVal: characters outside
the alphabet are discarded; an equals sign completes a quad of two or
three data characters (processing then stops); input ending with a quad
position other than zero is a padding error. -/
def a2bLoop : List Char → Nat → Nat → Nat → Except PyErr (List Nat)
  | [], q, _, _ => if q = 0 then .ok [] else .error .valueError
  | c :: rest, q, buf, pads =>
    if c = '=' then
      if 2 ≤ q ∧ 4 ≤ q + pads + 1 then .ok (bytesOfTail q buf)
      else a2bLoop rest q buf (pads + 1)
    else
      match b64CharVal c with
      | none => a2bLoop rest q buf pads
      | some v =>
        if q = 3 then
          Except.map (fun bs => bytesOfQuad (buf * 64 + v) ++ bs) (a2bLoop rest 0 0 pads)
        else a2bLoop rest (q + 1) (buf * 64 + v) pads

/-- bytes.decode for utf-8, strict: rejects bad leading bytes, missing or
malformed continuation bytes, overlong encodings, surrogates and values
past the Unicode range.  The continuation bytes are matched one nesting
level at a time; a leading byte whose required continuation bytes are
missing, and any leading byte outside the valid ranges, yields none. -/
def utf8DecodeList : List Nat → Option (List Char)
  | [] => some []
  | b :: rest =>
    if b < 128 then (utf8DecodeList rest).map (fun cs => Char.ofNat b :: cs) else
    match rest with
    | [] => none
    | b2 :: rest2 =>
      if 194 ≤ b ∧ b < 224 then
        (if 128 ≤ b2 ∧ b2 < 192 then
          (utf8DecodeList rest2).map (fun cs => Char.ofNat ((b - 192) * 64 + (b2 - 128)) :: cs)
         else none)
      else
        match rest2 with
        | [] => none
        | b3 :: rest3 =>
          if 224 ≤ b ∧ b < 240 then
            (if 128 ≤ b2 ∧ b2 < 192 ∧ 128 ≤ b3 ∧ b3 < 192 then
              (if (b - 224) * 4096 + (b2 - 128) * 64 + (b3 - 128) < 2048 ∨
                  (55296 ≤ (b - 224) * 4096 + (b2 - 128) * 64 + (b3 - 128) ∧
                    (b - 224) * 4096 + (b2 - 128) * 64 + (b3 - 128) < 57344) then none
               else (utf8DecodeList rest3).map
                 (fun cs => Char.ofNat ((b - 224) * 4096 + (b2 - 128) * 64 + (b3 - 128)) :: cs))
             else none)
          else
            match rest3 with
            | [] => none
            | b4 :: rest4 =>
              if 240 ≤ b ∧ b < 245 then
                (if 128 ≤ b2 ∧ b2 < 192 ∧ 128 ≤ b3 ∧ b3 < 192 ∧ 128 ≤ b4 ∧ b4 < 192 then
                  (if (b - 240) * 262144 + (b2 - 128) * 4096 + (b3 - 128) * 64 + (b4 - 128) <
                      65536 ∨
                      1114112 ≤ (b - 240) * 262144 + (b2 - 128) * 4096 + (b3 - 128) * 64 +
                        (b4 - 128) then none
                   else (utf8DecodeList rest4).map
                     (fun cs => Char.ofNat ((b - 240) * 262144 + (b2 - 128) * 4096 +
                       (b3 - 128) * 64 + (b4 - 128)) :: cs))
                 else none)
              else none

/-- The try block of the extractor: body_data plus three equals signs run
through base64.urlsafe_b64decode and then decoded as utf-8.  Every failure
inside the block, including the TypeError from concatenating a non-string,
is swallowed by the bare except, hence an Option. -/
def tryDecode (dataV : JVal) : Option String :=
  match dataV with
  | .str s =>
    match a2bLoop (s.data ++ ['=', '=', '=']) 0 0 0 with
    | .ok bytes => (utf8DecodeList bytes).map String.mk
    | .error _ => none
  | _ => none

/-- The loop over payload parts: a part whose declared mimeType is
text/plain and whose body data is truthy is decoded; decode failures skip
the part; attribute errors on malformed parts propagate. -/
def partsLoop : List JVal → Except PyErr (List String)
  | [] => .ok []
  | p :: rest => do
    let mt ← p.get "mimeType" .null
    if mt.isStrEq "text/plain" then do
      let body ← p.get "body" (.obj [])
      let dataV ← body.get "data" (.str "")
      if dataV.truthy then
        match tryDecode dataV with
        | some s => do
          let ts ← partsLoop rest
          pure (s :: ts)
        | none => partsLoop rest
      else partsLoop rest
    else partsLoop rest

/-- extract_text_from_payload from agent.py: empty for a falsy payload;
a payload containing parts takes the multipart branch joining the decoded
text/plain parts with newlines; otherwise a top-level text/plain body is
decoded; anything else yields the empty string. -/
def extract_text_from_payload (payload : JVal) : Except PyErr String := do
  if payload.truthy then
    let hasParts ← pyContains payload "parts"
    if hasParts then do
      let partsV ← pySubscript payload "parts"
      let parts ← pyIter partsV
      let texts ← partsLoop parts
      pure (String.intercalate "\n" texts)
    else do
      let mt ← payload.get "mimeType" .null
      if mt.isStrEq "text/plain" then do
        let body ← payload.get "body" (.obj [])
        let dataV ← body.get "data" (.str "")
        if dataV.truthy then
          match tryDecode dataV with
          | some s => pure s
          | none => pure ""
        else pure ""
      else pure ""
  else
    pure ""

/-- The scan of the header list inside get_header_value. -/
def headerLoop (name : String) : List JVal → Except PyErr JVal
  | [] => .ok (.str "")
  | h :: rest => do
    let nv ← h.get "name" (.str "")
    let ns ← pyLower nv
    if ns == strLower name then h.get "value" (.str "")
    else headerLoop name rest

/-- get_header_value from agent.py: the value of the first header whose
name matches case-insensitively, the empty string when none does. -/
def get_header_value (headers : JVal) (name : String) : Except PyErr JVal := do
  let items ← pyIter headers
  headerLoop name items

def isDigitChar (c : Char) : Bool :=
  48 ≤ c.toNat ∧ c.toNat ≤ 57

/-- Underscores are legal in Python numerals only between two digits. -/
def underscoresOk : List Char → Bool
  | [] => true
  | ['_'] => false
  | '_' :: '_' :: _ => false
  | '_' :: c :: rest => isDigitChar c && underscoresOk (c :: rest)
  | _ :: rest => underscoresOk rest

/-- Python int() digit-run parsing: at least one decimal digit, with
underscores allowed between digits. -/
def digitsVal (cs : List Char) : Option Nat :=
  match cs with
  | [] => none
  | '_' :: _ => none
  | _ =>
    if cs.all (fun c => isDigitChar c || c = '_') && underscoresOk cs then
      some ((cs.filter isDigitChar).foldl (fun acc c => acc * 10 + (c.toNat - 48)) 0)
    else none

def isPySpace (c : Char) : Bool :=
  c = ' ' ∨ c = '\t' ∨ c = '\n' ∨ c = '\r'

def parseIntStr (s : String) : Option Int :=
  let cs := s.data.dropWhile isPySpace
  let cs := (cs.reverse.dropWhile isPySpace).reverse
  match cs with
  | '-' :: rest => (digitsVal rest).map (fun n => -(n : Int))
  | '+' :: rest => (digitsVal rest).map (fun n => (n : Int))
  | _ => (digitsVal cs).map (fun n => (n : Int))

/-- Python int(v): identity on numbers, 0 or 1 on booleans, decimal
parsing on strings (ValueError on failure), TypeError otherwise. -/
def pyInt : JVal → Except PyErr Int
  | .num n => .ok n
  | .bool b => .ok (if b then 1 else 0)
  | .str s =>
    match parseIntStr s with
    | some n => .ok n
    | none => .error .valueError
  | _ => .error .typeError

/-- Decimal digits of a natural number, with enough fuel to terminate
structurally (any fuel above the digit count gives the same digits). -/
def natDigitsAux : Nat → Nat → List Char
  | 0, _ => []
  | fuel + 1, n =>
    if n < 10 then [Char.ofNat (48 + n)]
    else natDigitsAux fuel (n / 10) ++ [Char.ofNat (48 + n % 10)]

/-- Decimal digit string of a natural number. -/
def natDigits (n : Nat) : String :=
  String.mk (natDigitsAux (n + 1) n)

/-- Zero-padded two-digit field of strftime. -/
def pad2 (n : Nat) : String :=
  if n < 10 then "0" ++ natDigits n else natDigits n

/-- Zero-padded four-digit year field of strftime. -/
def pad4 (n : Nat) : String :=
  if n < 10 then "000" ++ natDigits n
  else if n < 100 then "00" ++ natDigits n
  else if n < 1000 then "0" ++ natDigits n
  else natDigits n

/-- Year, month and day from an era number and a day-of-era. -/
def civilFromDoe (era : Int) (doe : Nat) : Int × Nat × Nat :=
  let yoe := (doe - doe / 1460 + doe / 36524 - doe / 146096) / 365
  let y := (yoe : Int) + era * 400
  let doy := doe - (365 * yoe + yoe / 4 - yoe / 100)
  let mp := (5 * doy + 2) / 153
  let d := doy - (153 * mp + 2) / 5 + 1
  let m := if mp < 10 then mp + 3 else mp - 9
  (if m ≤ 2 then y + 1 else y, m, d)

/-- Days since the epoch to a civil date (year, month, day), the standard
days-from-civil inverse used by calendar conversions. -/
def civilFromDays (z0 : Int) : Int × Nat × Nat :=
  let z := z0 + 719468
  let era := z.fdiv 146097
  civilFromDoe era (z - era * 146097).toNat

/-- Model of datetime.fromtimestamp(ms / 1000).strftime on the pattern
year-month-day hour:minute:second, at a fixed local timezone offset tz in
seconds: the displayed second is the floor of the millisecond timestamp,
and timestamps whose local civil year falls outside 1..9999 raise
(datetime rejects such years). -/
def pyFromtimestampFormat (tz : Int) (ms : Int) : Except PyErr String :=
  let localSecs := ms.fdiv 1000 + tz
  let days := localSecs.fdiv 86400
  let sod := (localSecs - days * 86400).toNat
  match civilFromDays days with
  | (y, m, d) =>
    if y < 1 ∨ 9999 < y then .error .valueError
    else .ok (pad4 y.toNat ++ "-" ++ pad2 m ++ "-" ++ pad2 d ++ " " ++
              pad2 (sod / 3600) ++ ":" ++ pad2 (sod / 60 % 60) ++ ":" ++ pad2 (sod % 60))

/-- The messageTimestamp entry of parse_message: empty when internalDate
is absent or falsy, otherwise int() of the value (ValueError propagates)
converted and formatted. -/
def timestampExpr (tz : Int) (md : List (String × JVal)) : Except PyErr String :=
  if (dictGetD md "internalDate" .null).truthy then do
    let n ← pyInt (dictGetD md "internalDate" (.str "0"))
    pyFromtimestampFormat tz n
  else pure ""

/-- The fixed record shape produced by the Normalizer.  Fields copied
verbatim from the payload keep their dynamic JVal type, exactly as the
Python dict does. -/
structure MessageRecord where
  messageId : JVal
  threadId : JVal
  messageTimestamp : String
  labelIds : JVal
  sender : JVal
  subject : JVal
  messageText : String

/-- parse_message from agent.py on a dict payload, in Python evaluation
order: the headers line first, then the record entries. -/
def parseMessageObj (tz : Int) (md : List (String × JVal)) : Except PyErr MessageRecord := do
  let payloadV := dictGetD md "payload" (.obj [])
  let headers ← payloadV.get "headers" (.arr [])
  let ts ← timestampExpr tz md
  let sender ← get_header_value headers "From"
  let subject ← get_header_value headers "Subject"
  let text ← extract_text_from_payload payloadV
  pure {
    messageId := dictGetD md "id" (.str ""),
    threadId := dictGetD md "threadId" (.str ""),
    messageTimestamp := ts,
    labelIds := dictGetD md "labelIds" (.arr []),
    sender := sender,
    subject := subject,
    messageText := if 500 < text.length then text.take 500 ++ "..." else text }

/-- parse_message on an arbitrary runtime value: attribute access on a
non-dict raises AttributeError at the first .get call. -/
def parse_message (tz : Int) (v : JVal) : Except PyErr MessageRecord :=
  match v with
  | .obj md => parseMessageObj tz md
  | _ => .error .attributeError

/-! ## The concurrent fetch orchestrator -/

/-- Errors that can surface from the orchestration: a non-success HTTP
status raised by raise_for_status, a transport failure, or a Python
error from the post-processing of a response. -/
inductive OrchErr where
  | httpStatus (endpoint : String) (status : Nat)
  | transport (endpoint : String)
  | py (e : PyErr)
deriving DecidableEq

def liftPy {α : Type} : Except PyErr α → Except OrchErr α
  | .ok a => .ok a
  | .error e => .error (.py e)

/-- The network environment of one orchestrator run: the outcome of each
authenticated GET, already through raise_for_status and response.json(). -/
structure GmailEnv where
  labelsResp : Except OrchErr JVal
  profileResp : Except OrchErr JVal
  messagesResp : Except OrchErr JVal
  detailResp : JVal → Except OrchErr JVal

/-- get_labels: the labels field of the response, defaulting to the
empty list. -/
def get_labels (env : GmailEnv) : Except OrchErr JVal := do
  let data ← env.labelsResp
  liftPy (data.get "labels" (.arr []))

/-- get_profile: the profile response as is. -/
def get_profile (env : GmailEnv) : Except OrchErr JVal :=
  env.profileResp

/-- get_message_list: the messages field of the response (default empty),
then the id entry of every element; a missing id raises KeyError. -/
def get_message_list (env : GmailEnv) : Except OrchErr (List JVal) := do
  let data ← env.messagesResp
  let messages ← liftPy (data.get "messages" (.arr []))
  let items ← liftPy (pyIter messages)
  items.mapM (fun m => liftPy (pySubscript m "id"))

def taskErr {α : Type} : Except OrchErr α → Option OrchErr
  | .error e => some e
  | .ok _ => none

/-- asyncio.gather of three heterogeneous awaitables: order lists the
indices 0, 1, 2 in completion order; the error of the first member to
fail (in completion order) is the one propagated, and on success the
results keep the argument order. -/
def gather3 {α β γ : Type} (order : List Nat)
    (t1 : Except OrchErr α) (t2 : Except OrchErr β) (t3 : Except OrchErr γ) :
    Except OrchErr (α × β × γ) :=
  match order.findSome? (fun i =>
    if i = 0 then taskErr t1 else if i = 1 then taskErr t2
    else if i = 2 then taskErr t3 else none) with
  | some e => .error e
  | none =>
    match t1, t2, t3 with
    | .ok a, .ok b, .ok c => .ok (a, b, c)
    | .error e, _, _ => .error e
    | _, .error e, _ => .error e
    | _, _, .error e => .error e

/-- asyncio.gather of a list of awaitables, with order the completion
order of the indices: first-failing error, else results in input order. -/
def gatherList {α : Type} (order : List Nat) (tasks : List (Except OrchErr α)) :
    Except OrchErr (List α) :=
  match order.findSome? (fun i => (tasks.get? i).bind taskErr) with
  | some e => .error e
  | none => tasks.mapM (fun t => t)

/-- The aggregated result of one successful orchestrator run. -/
structure FetchResult where
  labels : JVal
  profile : JVal
  emails : List MessageRecord

/-- fetch_gmail_data_async: phase 1 gathers labels, profile and the
message-id list; phase 2 gathers one detail fetch per id; the details are
then parsed in id order.  ord1 and ord2 are the completion orders of the
two gathers; tz is the local timezone offset used by parse_message. -/
def fetch_gmail_data_async (tz : Int) (env : GmailEnv) (ord1 ord2 : List Nat) :
    Except OrchErr FetchResult := do
  let (labels, profile, message_ids) ←
    gather3 ord1 (get_labels env) (get_profile env) (get_message_list env)
  let message_details ← gatherList ord2 (message_ids.map env.detailResp)
  let parsed ← message_details.mapM (fun m => liftPy (parse_message tz m))
  pure { labels := labels, profile := profile, emails := parsed }

/-! ## Spec-side definitions used to state the claims -/

/-- Character of a six-bit value in the urlsafe base64 alphabet. -/
def b64UrlChar (v : Nat) : Char :=
  if v < 26 then Char.ofNat (65 + v)
  else if v < 52 then Char.ofNat (97 + v - 26)
  else if v < 62 then Char.ofNat (48 + v - 52)
  else if v = 62 then '-' else '_'

/-- base64url encoding of a byte list with the trailing padding removed,
as the claims describe the source service producing it. -/
def b64UrlEncodeNoPad : List Nat → List Char
  | [] => []
  | [b1] => [b64UrlChar (b1 / 4), b64UrlChar (b1 % 4 * 16)]
  | [b1, b2] => [b64UrlChar (b1 / 4), b64UrlChar (b1 % 4 * 16 + b2 / 16),
                 b64UrlChar (b2 % 16 * 4)]
  | b1 :: b2 :: b3 :: rest =>
    b64UrlChar (b1 / 4) :: b64UrlChar (b1 % 4 * 16 + b2 / 16) ::
    b64UrlChar (b2 % 16 * 4 + b3 / 64) :: b64UrlChar (b3 % 64) ::
    b64UrlEncodeNoPad rest

/-- utf-8 bytes of one scalar value. -/
def utf8EncodeScalar (n : Nat) : List Nat :=
  if n < 128 then [n]
  else if n < 2048 then [192 + n / 64, 128 + n % 64]
  else if n < 65536 then [224 + n / 4096, 128 + n / 64 % 64, 128 + n % 64]
  else [240 + n / 262144, 128 + n / 4096 % 64, 128 + n / 64 % 64, 128 + n % 64]

/-- utf-8 bytes of one character. -/
def utf8EncodeChar (c : Char) : List Nat :=
  utf8EncodeScalar c.toNat

def utf8EncodeList (cs : List Char) : List Nat :=
  (cs.map utf8EncodeChar).flatten

/-- utf-8 encoding of a string. -/
def utf8Encode (s : String) : List Nat :=
  utf8EncodeList s.data

/-- Declared mimeType of a part, as the extractor reads it. -/
def partMime (p : JVal) : JVal :=
  match p with
  | .obj kvs => (dictLookup kvs "mimeType").getD .null
  | _ => .null

/-- Body data of a part, as the extractor reads it (empty string when the
body or its data entry is absent). -/
def partData (p : JVal) : JVal :=
  match p with
  | .obj kvs =>
    match dictLookup kvs "body" with
    | some (.obj bkv) => (dictLookup bkv "data").getD (.str "")
    | _ => .str ""
  | _ => .str ""

/-- The decoded texts that the multipart branch keeps: parts declared
text/plain whose body data is present, nonempty and decodable, in payload
order. -/
def plainPartTexts (ps : List JVal) : List String :=
  ps.filterMap fun p =>
    if (partMime p).isStrEq "text/plain" && (partData p).truthy then tryDecode (partData p)
    else none

/-- Modelled from the claim wording of C6: the decoded body data of
exactly those parts declared text/plain, skipping only parts whose data
fails to decode — an absent or empty data entry still decodes, to the
empty string, and so still contributes an element under this reading. -/
def claimPlainPartTexts (ps : List JVal) : List String :=
  ps.filterMap fun p =>
    if (partMime p).isStrEq "text/plain" then tryDecode (partData p)
    else none

/-- A text/plain part whose body data is absent or the empty string (and
whose shape the loop can process). -/
def emptyDataPlainPart (p : JVal) : Bool :=
  match p with
  | .obj kvs =>
    (partMime p).isStrEq "text/plain" &&
      (match dictLookup kvs "body" with
       | none => true
       | some (.obj bkv) =>
         (match dictLookup bkv "data" with
          | none => true
          | some dv => dv.isStrEq "")
       | some _ => false)
  | _ => false

/-- Does a header match a looked-up name case-insensitively, reading the
header name the way the code does (missing name compares as empty)? -/
def headerMatches (name : String) (h : JVal) : Bool :=
  match h with
  | .obj kvs =>
    match dictLookup kvs "name" with
    | some (.str s) => strLower s == strLower name
    | none => strLower "" == strLower name
    | some _ => false
  | _ => false

/-- Modelled from the claim wording of C8: the value of the first header
whose name matches case-insensitively, the empty string when none does. -/
def claimHeaderValue (hs : List JVal) (name : String) : JVal :=
  match hs.find? (headerMatches name) with
  | some (.obj kvs) => dictGetD kvs "value" (.str "")
  | _ => .str ""

/-! ## Well-formedness of payloads (the shapes under which parse_message
is total; the hypotheses of the amended C1) -/

def optStr (o : Option JVal) : Bool :=
  match o with
  | none => true
  | some v => v.isStrB

def optArr (o : Option JVal) : Bool :=
  match o with
  | none => true
  | some v => v.isArrB

def optObj (o : Option JVal) : Bool :=
  match o with
  | none => true
  | some v => v.isObjB

/-- A header the scan can process: a dict whose name and value entries,
when present, are strings. -/
def wfHeader (h : JVal) : Bool :=
  match h with
  | .obj kvs => optStr (dictLookup kvs "name") && optStr (dictLookup kvs "value")
  | _ => false

def wfHeaders (o : Option JVal) : Bool :=
  match o with
  | none => true
  | some (.arr hs) => hs.all wfHeader
  | some _ => false

/-- A part the multipart loop can process: a dict whose body, when
present, is a dict. -/
def wfPart (p : JVal) : Bool :=
  match p with
  | .obj kvs => optObj (dictLookup kvs "body")
  | _ => false

def wfParts (o : Option JVal) : Bool :=
  match o with
  | none => true
  | some (.arr ps) => ps.all wfPart
  | some _ => false

/-- A payload the Normalizer can process without raising: a dict (when
present) whose headers, parts and body entries are well shaped. -/
def wfPayload (o : Option JVal) : Bool :=
  match o with
  | none => true
  | some (.obj kvs) =>
    wfHeaders (dictLookup kvs "headers") && wfParts (dictLookup kvs "parts") &&
      optObj (dictLookup kvs "body")
  | some _ => false

/-- internalDate values the timestamp entry can process: falsy, or a
value int() accepts whose formatted local time has a representable year. -/
def wfTimestamp (tz : Int) (o : Option JVal) : Bool :=
  let v := o.getD .null
  !v.truthy ||
    (match pyInt v with
     | .ok n => (pyFromtimestampFormat tz n).isOk
     | .error _ => false)

/-- The well-formedness bundle of the amended C1: every field that is
present has the shape the code expects. -/
def wfMessage (tz : Int) (md : List (String × JVal)) : Bool :=
  optStr (dictLookup md "id") && optStr (dictLookup md "threadId") &&
    optArr (dictLookup md "labelIds") && wfPayload (dictLookup md "payload") &&
    wfTimestamp tz (dictLookup md "internalDate")

/-! ## Basic lemmas about the embedding -/

theorem exceptBind_ok {ε α β : Type} (e : Except ε α) (f : α → Except ε β) (b : β) :
    (e >>= f = Except.ok b) ↔ ∃ a, e = Except.ok a ∧ f a = Except.ok b := by
  cases e <;> simp [Except.bind, Bind.bind]

theorem nat_lt_ten_pow (n : Nat) : n < 10 ^ (n + 1) := by
  have h1 : n < 10 ^ n := Nat.lt_pow_self (by omega) n
  have h2 : 10 ^ n ≤ 10 ^ (n + 1) := Nat.pow_le_pow_right (by omega) (by omega)
  omega

theorem natDigitsAux_len (fuel n : Nat) (hf : n < 10 ^ fuel) (hf1 : 0 < fuel) :
    (n < 10 → (natDigitsAux fuel n).length = 1) ∧
      (10 ≤ n → n < 100 → (natDigitsAux fuel n).length = 2) ∧
      (100 ≤ n → n < 1000 → (natDigitsAux fuel n).length = 3) ∧
      (1000 ≤ n → n < 10000 → (natDigitsAux fuel n).length = 4) := by
  induction fuel generalizing n with
  | zero => omega
  | succ fuel ih =>
    unfold natDigitsAux
    by_cases h : n < 10
    · rw [if_pos h]
      exact ⟨fun _ => rfl, fun ha _ => absurd ha (by omega),
        fun ha _ => absurd ha (by omega), fun ha _ => absurd ha (by omega)⟩
    · rw [if_neg h]
      have hp : (10 : Nat) ^ (fuel + 1) = 10 ^ fuel * 10 := pow_succ 10 fuel
      have hfuel : 0 < fuel := by
        rcases Nat.eq_zero_or_pos fuel with hz | hpos
        · subst hz
          simp at hf
          omega
        · exact hpos
      rcases ih (n / 10) (by omega) hfuel with ⟨ih1, ih2, ih3, ih4⟩
      rw [List.length_append]
      simp only [List.length_cons, List.length_nil]
      refine ⟨fun h10 => absurd h10 h, fun ha hb => ?_, fun ha hb => ?_, fun ha hb => ?_⟩
      · rw [ih1 (by omega)]
      · rw [ih2 (by omega) (by omega)]
      · rw [ih3 (by omega) (by omega)]

theorem natDigits_len1 (n : Nat) (h : n < 10) : (natDigits n).length = 1 := by
  unfold natDigits
  rw [String.length_mk]
  exact (natDigitsAux_len (n + 1) n (nat_lt_ten_pow n) (by omega)).1 h

theorem natDigits_len2 (n : Nat) (h1 : 10 ≤ n) (h2 : n < 100) : (natDigits n).length = 2 := by
  unfold natDigits
  rw [String.length_mk]
  exact (natDigitsAux_len (n + 1) n (nat_lt_ten_pow n) (by omega)).2.1 h1 h2

theorem natDigits_len3 (n : Nat) (h1 : 100 ≤ n) (h2 : n < 1000) : (natDigits n).length = 3 := by
  unfold natDigits
  rw [String.length_mk]
  exact (natDigitsAux_len (n + 1) n (nat_lt_ten_pow n) (by omega)).2.2.1 h1 h2

theorem natDigits_len4 (n : Nat) (h1 : 1000 ≤ n) (h2 : n < 10000) : (natDigits n).length = 4 := by
  unfold natDigits
  rw [String.length_mk]
  exact (natDigitsAux_len (n + 1) n (nat_lt_ten_pow n) (by omega)).2.2.2 h1 h2

theorem pad2_len (n : Nat) (h : n < 100) : (pad2 n).length = 2 := by
  unfold pad2
  by_cases h10 : n < 10
  · rw [if_pos h10, String.length_append, natDigits_len1 _ h10]; rfl
  · rw [if_neg h10, natDigits_len2 _ (by omega) h]

theorem pad4_len (n : Nat) (h : n < 10000) : (pad4 n).length = 4 := by
  unfold pad4
  by_cases h10 : n < 10
  · rw [if_pos h10, String.length_append, natDigits_len1 _ h10]; rfl
  · rw [if_neg h10]
    by_cases h100 : n < 100
    · rw [if_pos h100, String.length_append, natDigits_len2 _ (by omega) h100]; rfl
    · rw [if_neg h100]
      by_cases h1000 : n < 1000
      · rw [if_pos h1000, String.length_append, natDigits_len3 _ (by omega) h1000]; rfl
      · rw [if_neg h1000, natDigits_len4 _ (by omega) h]

theorem civilFromDoe_month_le (era : Int) (doe : Nat) (h : doe ≤ 146096) :
    (civilFromDoe era doe).2.1 ≤ 14 := by
  unfold civilFromDoe
  dsimp only
  split <;> omega

theorem civilFromDoe_day_le (era : Int) (doe : Nat) :
    (civilFromDoe era doe).2.2 ≤ 31 := by
  unfold civilFromDoe
  dsimp only
  omega

theorem pyFromtimestampFormat_len (tz ms : Int) (s : String)
    (h : pyFromtimestampFormat tz ms = .ok s) : s.length = 19 := by
  unfold pyFromtimestampFormat at h
  dsimp only at h
  set L : Int := ms.fdiv 1000 + tz with hL
  have hfd : L.fdiv 86400 = L / 86400 := Int.fdiv_eq_ediv _ (by omega)
  set doeZ : Int := L + 719468 * 86400 with hdoe
  rcases hc : civilFromDays (L.fdiv 86400) with ⟨y, m, d⟩
  rw [hc] at h
  by_cases hy : y < 1 ∨ 9999 < y
  · rw [if_pos hy] at h
    exact absurd h (by simp)
  · rw [if_neg hy] at h
    push_neg at hy
    have hsod : (L - L.fdiv 86400 * 86400).toNat < 86400 := by
      rw [hfd]; omega
    have hm : m ≤ 14 := by
      have := civilFromDoe_month_le ((L.fdiv 86400 + 719468).fdiv 146097)
        ((L.fdiv 86400 + 719468) - (L.fdiv 86400 + 719468).fdiv 146097 * 146097).toNat
        (by rw [Int.fdiv_eq_ediv _ (by omega : (0:Int) ≤ 146097)]; omega)
      unfold civilFromDays at hc
      dsimp only at hc
      rw [hc] at this
      exact this
    have hd : d ≤ 31 := by
      have := civilFromDoe_day_le ((L.fdiv 86400 + 719468).fdiv 146097)
        ((L.fdiv 86400 + 719468) - (L.fdiv 86400 + 719468).fdiv 146097 * 146097).toNat
      unfold civilFromDays at hc
      dsimp only at hc
      rw [hc] at this
      exact this
    have := h
    cases this
    simp only [String.length_append]
    rw [pad4_len y.toNat (by omega), pad2_len m (by omega), pad2_len d (by omega),
        pad2_len _ (by omega : (L - L.fdiv 86400 * 86400).toNat / 3600 < 100),
        pad2_len _ (by omega : (L - L.fdiv 86400 * 86400).toNat / 60 % 60 < 100),
        pad2_len _ (by omega : (L - L.fdiv 86400 * 86400).toNat % 60 < 100)]
    rfl

theorem exceptPure_ok {ε α : Type} (a b : α) :
    ((pure a : Except ε α) = Except.ok b) ↔ a = b := by
  constructor
  · intro h
    cases h
    rfl
  · intro h
    cases h
    rfl

theorem timestampExpr_falsy (tz : Int) (md : List (String × JVal))
    (h : (dictGetD md "internalDate" .null).truthy = false) :
    timestampExpr tz md = .ok "" := by
  unfold timestampExpr
  rw [h]
  rfl

theorem timestampExpr_truthy (tz : Int) (md : List (String × JVal))
    (h : (dictGetD md "internalDate" .null).truthy = true) :
    timestampExpr tz md =
      pyInt (dictGetD md "internalDate" (.str "0")) >>= pyFromtimestampFormat tz := by
  unfold timestampExpr
  rw [h]
  rfl

/-- Inversion of a successful parse into the outcomes of its parts. -/
theorem parseMessageObj_ok_iff (tz : Int) (md : List (String × JVal)) (r : MessageRecord) :
    parseMessageObj tz md = .ok r ↔
      ∃ hv ts sv sj tx,
        (dictGetD md "payload" (.obj [])).get "headers" (.arr []) = .ok hv ∧
        timestampExpr tz md = .ok ts ∧
        get_header_value hv "From" = .ok sv ∧
        get_header_value hv "Subject" = .ok sj ∧
        extract_text_from_payload (dictGetD md "payload" (.obj [])) = .ok tx ∧
        r = { messageId := dictGetD md "id" (.str ""),
              threadId := dictGetD md "threadId" (.str ""),
              messageTimestamp := ts,
              labelIds := dictGetD md "labelIds" (.arr []),
              sender := sv, subject := sj,
              messageText := if 500 < tx.length then tx.take 500 ++ "..." else tx } := by
  unfold parseMessageObj
  simp only [exceptBind_ok, exceptPure_ok]
  constructor
  · rintro ⟨hv, h1, ts, h2, sv, h3, sj, h4, tx, h5, h6⟩
    exact ⟨hv, ts, sv, sj, tx, h1, h2, h3, h4, h5, h6.symm⟩
  · rintro ⟨hv, ts, sv, sj, tx, h1, h2, h3, h4, h5, h6⟩
    exact ⟨hv, h1, ts, h2, sv, h3, sj, h4, tx, h5, h6.symm⟩

/-- C2 (amended): when internalDate is absent or falsy the produced
record carries an empty messageTimestamp; when it is truthy and int()
parses it, the record carries the epoch-milliseconds value converted at
the local offset and formatted, a 19-character string; but when it is
truthy and unparsable, parse_message raises instead of producing a
record, contrary to the original claim. -/
theorem c2_messageTimestamp (tz : Int) (md : List (String × JVal)) :
    ((dictGetD md "internalDate" .null).truthy = false →
      ∀ r, parse_message tz (.obj md) = .ok r → r.messageTimestamp = "") ∧
    ((dictGetD md "internalDate" .null).truthy = true →
      (∀ n, pyInt (dictGetD md "internalDate" (.str "0")) = .ok n →
        ∀ r, parse_message tz (.obj md) = .ok r →
          pyFromtimestampFormat tz n = .ok r.messageTimestamp ∧
            r.messageTimestamp.length = 19) ∧
      (∀ e, pyInt (dictGetD md "internalDate" (.str "0")) = .error e →
        ∀ r, parse_message tz (.obj md) ≠ .ok r)) := by
  refine ⟨?_, fun htr => ⟨?_, ?_⟩⟩
  · intro hfalse r hok
    rcases (parseMessageObj_ok_iff tz md r).mp hok with ⟨hv, ts, sv, sj, tx, _, h2, _, _, _, h6⟩
    rw [timestampExpr_falsy tz md hfalse] at h2
    cases h2
    rw [h6]
  · intro n hn r hok
    rcases (parseMessageObj_ok_iff tz md r).mp hok with ⟨hv, ts, sv, sj, tx, _, h2, _, _, _, h6⟩
    rw [timestampExpr_truthy tz md htr, hn] at h2
    have h2 : pyFromtimestampFormat tz n = .ok ts := h2
    constructor
    · rw [h6]
      exact h2
    · rw [h6]
      exact pyFromtimestampFormat_len tz n ts h2
  · intro e he r hok
    rcases (parseMessageObj_ok_iff tz md r).mp hok with ⟨hv, ts, sv, sj, tx, _, h2, _, _, _, _⟩
    rw [timestampExpr_truthy tz md htr, he] at h2
    exact absurd h2 (by simp [Except.bind, Bind.bind])

/-- C2 counterexample: a payload carrying the unparsable internalDate
"abc" makes parse_message raise ValueError, so no record with an empty
messageTimestamp is produced, contrary to the claim that an unparsable
timestamp degrades to the empty string. -/
theorem c2_counterexample :
    parse_message 0 (.obj [("internalDate", JVal.str "abc")]) = .error PyErr.valueError := by
  rfl

/-- C2 witness: a payload with internalDate 1672531200000 parses to a
record whose messageTimestamp is the formatted local time, 19 characters. -/
theorem c2_witness :
    pyFromtimestampFormat 0 1672531200000 = .ok "2023-01-01 00:00:00" ∧
      ("2023-01-01 00:00:00" : String).length = 19 :=
  ((c2_messageTimestamp 0 [("internalDate", JVal.str "1672531200000")]).2 rfl).1
    1672531200000 rfl
    { messageId := .str "", threadId := .str "", messageTimestamp := "2023-01-01 00:00:00",
      labelIds := .arr [], sender := .str "", subject := .str "", messageText := "" } (by rfl)

@[simp] theorem exceptBind_ok_left {ε α β : Type} (a : α) (f : α → Except ε β) :
    (Except.ok a : Except ε α) >>= f = f a := rfl

@[simp] theorem exceptBind_err_left {ε α β : Type} (e : ε) (f : α → Except ε β) :
    (Except.error e : Except ε α) >>= f = .error e := rfl

theorem claimHeaderValue_cons (name : String) (h : JVal) (rest : List JVal) :
    claimHeaderValue (h :: rest) name =
      if headerMatches name h then
        (match h with
         | .obj kvs => dictGetD kvs "value" (.str "")
         | _ => .str "")
      else claimHeaderValue rest name := by
  unfold claimHeaderValue
  by_cases hm : headerMatches name h
  · rw [List.find?_cons_of_pos _ hm, if_pos hm]
    cases h <;> rfl
  · rw [List.find?_cons_of_neg _ hm, if_neg hm]

theorem headerLoop_wf (name : String) (hs : List JVal) (hwf : hs.all wfHeader = true) :
    headerLoop name hs = .ok (claimHeaderValue hs name) ∧
      (claimHeaderValue hs name).isStrB = true := by
  induction hs with
  | nil => exact ⟨rfl, rfl⟩
  | cons h rest ih =>
    rw [List.all_cons, Bool.and_eq_true] at hwf
    obtain ⟨hh, hrest⟩ := hwf
    obtain ⟨ih1, ih2⟩ := ih hrest
    cases h with
    | obj kvs =>
      rw [wfHeader, Bool.and_eq_true] at hh
      obtain ⟨hn, hv⟩ := hh
      have hvalStr : (dictGetD kvs "value" (.str "")).isStrB = true := by
        unfold dictGetD
        cases hval : dictLookup kvs "value" with
        | none => rfl
        | some v =>
          rw [hval] at hv
          cases v <;> simp_all [optStr, JVal.isStrB]
      rw [claimHeaderValue_cons]
      cases hname : dictLookup kvs "name" with
      | none =>
        have hred : headerLoop name (JVal.obj kvs :: rest) =
            if (strLower "" == strLower name) = true then
              .ok (dictGetD kvs "value" (.str "")) else headerLoop name rest := by
          simp only [headerLoop, JVal.get, exceptBind_ok_left]
          rw [show dictGetD kvs "name" (.str "") = .str "" by
            unfold dictGetD; rw [hname]; rfl]
          rfl
        have hm : headerMatches name (JVal.obj kvs) = (strLower "" == strLower name) := by
          rw [headerMatches, hname]
        rw [hred, hm]
        by_cases hmatch : (strLower "" == strLower name) = true
        · rw [if_pos hmatch, if_pos hmatch]
          exact ⟨rfl, hvalStr⟩
        · rw [if_neg hmatch, if_neg hmatch]
          exact ⟨ih1, ih2⟩
      | some nv =>
        rw [hname] at hn
        cases nv with
        | str s =>
          have hred : headerLoop name (JVal.obj kvs :: rest) =
              if (strLower s == strLower name) = true then
                .ok (dictGetD kvs "value" (.str "")) else headerLoop name rest := by
            simp only [headerLoop, JVal.get, exceptBind_ok_left]
            rw [show dictGetD kvs "name" (.str "") = .str s by
              unfold dictGetD; rw [hname]; rfl]
            rfl
          have hm : headerMatches name (JVal.obj kvs) = (strLower s == strLower name) := by
            rw [headerMatches, hname]
          rw [hred, hm]
          by_cases hmatch : (strLower s == strLower name) = true
          · rw [if_pos hmatch, if_pos hmatch]
            exact ⟨rfl, hvalStr⟩
          · rw [if_neg hmatch, if_neg hmatch]
            exact ⟨ih1, ih2⟩
        | null => simp [optStr, JVal.isStrB] at hn
        | bool b => simp [optStr, JVal.isStrB] at hn
        | num n => simp [optStr, JVal.isStrB] at hn
        | arr xs => simp [optStr, JVal.isStrB] at hn
        | obj kvs2 => simp [optStr, JVal.isStrB] at hn
    | null => simp [wfHeader] at hh
    | bool b => simp [wfHeader] at hh
    | num n => simp [wfHeader] at hh
    | str s => simp [wfHeader] at hh
    | arr xs => simp [wfHeader] at hh

theorem get_header_value_wf (name : String) (hs : List JVal) (hwf : hs.all wfHeader = true) :
    get_header_value (.arr hs) name = .ok (claimHeaderValue hs name) := by
  unfold get_header_value
  simp only [pyIter, exceptBind_ok_left]
  exact (headerLoop_wf name hs hwf).1

/-- C8: for a payload whose header list is well shaped, the sender and
subject fields of the parsed record are the value of the first header
matching From and Subject respectively under case-insensitive comparison,
defaulting to the empty string when no header matches. -/
theorem c8_sender_subject (tz : Int) (md : List (String × JVal)) (r : MessageRecord)
    (pkv : List (String × JVal)) (hs : List JVal)
    (hp : dictLookup md "payload" = some (.obj pkv))
    (hh : dictLookup pkv "headers" = some (.arr hs))
    (hwf : hs.all wfHeader = true)
    (hok : parse_message tz (.obj md) = .ok r) :
    r.sender = claimHeaderValue hs "From" ∧ r.subject = claimHeaderValue hs "Subject" := by
  rcases (parseMessageObj_ok_iff tz md r).mp hok with ⟨hv, ts, sv, sj, tx, h1, h2, h3, h4, h5, h6⟩
  have hpv : dictGetD md "payload" (.obj []) = .obj pkv := by
    unfold dictGetD
    rw [hp]
    rfl
  rw [hpv] at h1
  have hhv : hv = .arr hs := by
    simp only [JVal.get] at h1
    cases h1
    unfold dictGetD
    rw [hh]
    rfl
  rw [hhv] at h3 h4
  rw [get_header_value_wf _ _ hwf] at h3 h4
  cases h3
  cases h4
  rw [h6]
  exact ⟨rfl, rfl⟩

/-- C8 witness: a concrete payload whose From header is spelled FROM is
still matched, and both fields take the first matching header value. -/
theorem c8_witness :
    ∃ r, parse_message 0 (.obj [("payload", .obj [("headers", .arr [
        .obj [("name", .str "FROM"), ("value", .str "a@b.com")],
        .obj [("name", .str "Subject"), ("value", .str "Hi")]])])]) = .ok r ∧
      r.sender = claimHeaderValue [
        .obj [("name", .str "FROM"), ("value", .str "a@b.com")],
        .obj [("name", .str "Subject"), ("value", .str "Hi")]] "From" ∧
      r.subject = claimHeaderValue [
        .obj [("name", .str "FROM"), ("value", .str "a@b.com")],
        .obj [("name", .str "Subject"), ("value", .str "Hi")]] "Subject" ∧
      r.sender = .str "a@b.com" ∧ r.subject = .str "Hi" := by
  refine ⟨{ messageId := .str "", threadId := .str "", messageTimestamp := "",
            labelIds := .arr [], sender := .str "a@b.com", subject := .str "Hi",
            messageText := "" }, by rfl, ?_, ?_, by rfl, by rfl⟩
  · exact (c8_sender_subject 0
      [("payload", .obj [("headers", .arr [
        .obj [("name", .str "FROM"), ("value", .str "a@b.com")],
        .obj [("name", .str "Subject"), ("value", .str "Hi")]])])]
      { messageId := .str "", threadId := .str "", messageTimestamp := "",
        labelIds := .arr [], sender := .str "a@b.com", subject := .str "Hi",
        messageText := "" }
      [("headers", .arr [
        .obj [("name", .str "FROM"), ("value", .str "a@b.com")],
        .obj [("name", .str "Subject"), ("value", .str "Hi")]])]
      [.obj [("name", .str "FROM"), ("value", .str "a@b.com")],
       .obj [("name", .str "Subject"), ("value", .str "Hi")]]
      (by rfl) (by rfl) (by rfl) (by rfl)).1
  · exact (c8_sender_subject 0
      [("payload", .obj [("headers", .arr [
        .obj [("name", .str "FROM"), ("value", .str "a@b.com")],
        .obj [("name", .str "Subject"), ("value", .str "Hi")]])])]
      { messageId := .str "", threadId := .str "", messageTimestamp := "",
        labelIds := .arr [], sender := .str "a@b.com", subject := .str "Hi",
        messageText := "" }
      [("headers", .arr [
        .obj [("name", .str "FROM"), ("value", .str "a@b.com")],
        .obj [("name", .str "Subject"), ("value", .str "Hi")]])]
      [.obj [("name", .str "FROM"), ("value", .str "a@b.com")],
       .obj [("name", .str "Subject"), ("value", .str "Hi")]]
      (by rfl) (by rfl) (by rfl) (by rfl)).2

theorem dictLookup_ne_nil {kvs : List (String × JVal)} {k : String} {v : JVal}
    (h : dictLookup kvs k = some v) : kvs.isEmpty = false := by
  cases kvs with
  | nil => simp [dictLookup, List.find?] at h
  | cons a l => rfl

/-- Any payload holding a parts key takes the multipart branch, whatever
else it holds. -/
theorem extract_of_parts (kvs : List (String × JVal)) (v : JVal)
    (hp : dictLookup kvs "parts" = some v) :
    extract_text_from_payload (.obj kvs) =
      pyIter v >>= fun parts => partsLoop parts >>= fun texts =>
        pure (String.intercalate "\n" texts) := by
  unfold extract_text_from_payload
  rw [show (JVal.obj kvs).truthy = true by
    simp [JVal.truthy, dictLookup_ne_nil hp]]
  simp only [if_true, pyContains, hp, Option.isSome, exceptBind_ok_left, pySubscript]

theorem plainPartTexts_cons (p : JVal) (rest : List JVal) :
    plainPartTexts (p :: rest) =
      if (partMime p).isStrEq "text/plain" && (partData p).truthy then
        (match tryDecode (partData p) with
         | some s => s :: plainPartTexts rest
         | none => plainPartTexts rest)
      else plainPartTexts rest := by
  unfold plainPartTexts
  rw [List.filterMap_cons]
  by_cases hc : (partMime p).isStrEq "text/plain" && (partData p).truthy
  · rw [if_pos hc, if_pos hc]
    cases tryDecode (partData p) <;> rfl
  · rw [if_neg hc, if_neg hc]

theorem partsLoop_wf (ps : List JVal) (hwf : ps.all wfPart = true) :
    partsLoop ps = .ok (plainPartTexts ps) := by
  induction ps with
  | nil => rfl
  | cons p rest ih =>
    rw [List.all_cons, Bool.and_eq_true] at hwf
    obtain ⟨hp, hrest⟩ := hwf
    have ihr := ih hrest
    rw [plainPartTexts_cons]
    cases p with
    | obj kvs =>
      rw [wfPart] at hp
      have hmime : partMime (JVal.obj kvs) = dictGetD kvs "mimeType" .null := rfl
      simp only [partsLoop, JVal.get, exceptBind_ok_left, hmime]
      cases hmt : (dictGetD kvs "mimeType" .null).isStrEq "text/plain" with
      | false => simp [hmt, ihr]
      | true =>
        simp only [hmt, Bool.true_and, if_true]
        cases hb : dictLookup kvs "body" with
        | none =>
          have hbody : dictGetD kvs "body" (.obj []) = .obj [] := by
            unfold dictGetD
            rw [hb]
            rfl
          have hpdata : partData (JVal.obj kvs) = .str "" := by
            simp only [partData, hb]
          rw [hbody, hpdata]
          simp only [JVal.get, exceptBind_ok_left]
          rw [show dictGetD ([] : List (String × JVal)) "data" (JVal.str "") = JVal.str ""
            from rfl]
          have hft : (JVal.str "").truthy = false := rfl
          simp [hft, ihr]
        | some bv =>
          cases bv with
          | obj bkv =>
            have hbody : dictGetD kvs "body" (.obj []) = .obj bkv := by
              unfold dictGetD
              rw [hb]
              rfl
            have hpdata : partData (JVal.obj kvs) = dictGetD bkv "data" (.str "") := by
              simp only [partData, hb]
              rfl
            rw [hbody, hpdata]
            simp only [JVal.get, exceptBind_ok_left]
            cases htr : (dictGetD bkv "data" (.str "")).truthy with
            | false => simp [htr, ihr]
            | true =>
              simp only [htr, if_true]
              cases hdec : tryDecode (dictGetD bkv "data" (.str "")) with
              | some s => simp [hdec, ihr]
              | none => simp [hdec, ihr]
          | null =>
            rw [hb] at hp
            simp [optObj, JVal.isObjB] at hp
          | bool b =>
            rw [hb] at hp
            simp [optObj, JVal.isObjB] at hp
          | num n =>
            rw [hb] at hp
            simp [optObj, JVal.isObjB] at hp
          | str s =>
            rw [hb] at hp
            simp [optObj, JVal.isObjB] at hp
          | arr xs =>
            rw [hb] at hp
            simp [optObj, JVal.isObjB] at hp
    | null => simp [wfPart] at hp
    | bool b => simp [wfPart] at hp
    | num n => simp [wfPart] at hp
    | str s => simp [wfPart] at hp
    | arr xs => simp [wfPart] at hp

/-- C6 (amended): for a multipart payload with well-shaped parts, the
extracted text is the newline join, in payload order, of the decoded body
data of exactly those parts declared text/plain whose body data is
present and nonempty; parts of other content types contribute nothing and
a decoding failure skips only that part.  The amendment adds "present and
nonempty": a text/plain part whose data is the empty string decodes to
the empty string under the claim wording yet is skipped by the code. -/
theorem c6_multipart_join (kvs : List (String × JVal)) (ps : List JVal)
    (hp : dictLookup kvs "parts" = some (.arr ps)) (hwf : ps.all wfPart = true) :
    extract_text_from_payload (.obj kvs) =
      .ok (String.intercalate "\n" (plainPartTexts ps)) := by
  rw [extract_of_parts kvs _ hp]
  simp only [pyIter, exceptBind_ok_left, partsLoop_wf ps hwf]
  rfl

/-- C6 counterexample: with text/plain parts decoding to A, empty (from
empty body data) and B, the code yields the join of A and B only, while
the claim reading, which keeps every decodable text/plain part, yields a
join with an extra blank line. -/
theorem c6_counterexample :
    extract_text_from_payload (.obj [("parts", .arr [
      .obj [("mimeType", .str "text/plain"), ("body", .obj [("data", .str "QQ")])],
      .obj [("mimeType", .str "text/plain"), ("body", .obj [("data", .str "")])],
      .obj [("mimeType", .str "text/plain"), ("body", .obj [("data", .str "Qg")])]])]) =
        .ok "A\nB" ∧
      String.intercalate "\n" (claimPlainPartTexts [
        .obj [("mimeType", .str "text/plain"), ("body", .obj [("data", .str "QQ")])],
        .obj [("mimeType", .str "text/plain"), ("body", .obj [("data", .str "")])],
        .obj [("mimeType", .str "text/plain"), ("body", .obj [("data", .str "Qg")])]]) =
          "A\n\nB" ∧
      ("A\nB" : String) ≠ "A\n\nB" := by
  refine ⟨by rfl, by rfl, by decide⟩

/-- C6 witness: two text/plain parts A and B and one text/html part give
the newline join of A and B; the html part is ignored. -/
theorem c6_witness :
    extract_text_from_payload (.obj [("parts", .arr [
      .obj [("mimeType", .str "text/plain"), ("body", .obj [("data", .str "QQ")])],
      .obj [("mimeType", .str "text/html"), ("body", .obj [("data", .str "aGk")])],
      .obj [("mimeType", .str "text/plain"), ("body", .obj [("data", .str "Qg")])]])]) =
        .ok (String.intercalate "\n" (plainPartTexts [
          .obj [("mimeType", .str "text/plain"), ("body", .obj [("data", .str "QQ")])],
          .obj [("mimeType", .str "text/html"), ("body", .obj [("data", .str "aGk")])],
          .obj [("mimeType", .str "text/plain"), ("body", .obj [("data", .str "Qg")])]])) ∧
      String.intercalate "\n" (plainPartTexts [
        .obj [("mimeType", .str "text/plain"), ("body", .obj [("data", .str "QQ")])],
        .obj [("mimeType", .str "text/html"), ("body", .obj [("data", .str "aGk")])],
        .obj [("mimeType", .str "text/plain"), ("body", .obj [("data", .str "Qg")])]]) =
          "A\nB" := by
  refine ⟨c6_multipart_join _ _ rfl rfl, by rfl⟩

/-- C9: the presence of a parts key alone selects the multipart branch:
the extraction result depends only on the parts value, so any top-level
declared content type and body data are ignored whenever parts is
present. -/
theorem c9_parts_selects_branch (kvs1 kvs2 : List (String × JVal)) (v : JVal)
    (h1 : dictLookup kvs1 "parts" = some v) (h2 : dictLookup kvs2 "parts" = some v) :
    extract_text_from_payload (.obj kvs1) = extract_text_from_payload (.obj kvs2) := by
  rw [extract_of_parts kvs1 v h1, extract_of_parts kvs2 v h2]

/-- C9 witness: a payload declared text/plain with decodable top-level
body data but an empty parts list extracts the empty string, exactly as
the bare empty-parts payload does, while the same payload without the
parts key would extract the decoded body. -/
theorem c9_witness :
    extract_text_from_payload (.obj [("mimeType", .str "text/plain"),
        ("body", .obj [("data", .str "aGk")]), ("parts", .arr [])]) =
      extract_text_from_payload (.obj [("parts", .arr [])]) ∧
    extract_text_from_payload (.obj [("mimeType", .str "text/plain"),
        ("body", .obj [("data", .str "aGk")]), ("parts", .arr [])]) = .ok "" ∧
    extract_text_from_payload (.obj [("mimeType", .str "text/plain"),
        ("body", .obj [("data", .str "aGk")])]) = .ok "hi" := by
  refine ⟨c9_parts_selects_branch
    [("mimeType", .str "text/plain"), ("body", .obj [("data", .str "aGk")]),
     ("parts", .arr [])]
    [("parts", .arr [])] (.arr []) (by rfl) (by rfl), by rfl, by rfl⟩

/-- C10: a text/plain part whose body data is absent or the empty string
is skipped entirely by the multipart loop: removing it from the part list
leaves the result unchanged, so it contributes no element and no
separator to the newline join. -/
theorem c10_empty_data_part_skipped (ps1 ps2 : List JVal) (p : JVal)
    (h : emptyDataPlainPart p = true) :
    partsLoop (ps1 ++ p :: ps2) = partsLoop (ps1 ++ ps2) := by
  induction ps1 with
  | nil =>
    simp only [List.nil_append]
    cases p with
    | obj kvs =>
      rw [emptyDataPlainPart, Bool.and_eq_true] at h
      obtain ⟨hmt, hbody⟩ := h
      have hmime : partMime (JVal.obj kvs) = dictGetD kvs "mimeType" .null := rfl
      rw [hmime] at hmt
      simp only [partsLoop, JVal.get, exceptBind_ok_left, hmt, if_true]
      cases hb : dictLookup kvs "body" with
      | none =>
        rw [show dictGetD kvs "body" (.obj []) = .obj [] by
          unfold dictGetD; rw [hb]; rfl]
        simp only [JVal.get, exceptBind_ok_left]
        rfl
      | some bv =>
        rw [hb] at hbody
        cases bv with
        | obj bkv =>
          rw [show dictGetD kvs "body" (.obj []) = .obj bkv by
            unfold dictGetD; rw [hb]; rfl]
          simp only [JVal.get, exceptBind_ok_left]
          dsimp only at hbody
          cases hd : dictLookup bkv "data" with
          | none =>
            rw [show dictGetD bkv "data" (.str "") = .str "" by
              unfold dictGetD; rw [hd]; rfl]
            rfl
          | some dv =>
            rw [hd] at hbody
            cases dv with
            | str s =>
              have hse : s = "" := by simpa [JVal.isStrEq] using hbody
              subst hse
              rw [show dictGetD bkv "data" (.str "") = .str "" by
                unfold dictGetD; rw [hd]; rfl]
              rfl
            | null => simp [JVal.isStrEq] at hbody
            | bool b => simp [JVal.isStrEq] at hbody
            | num n => simp [JVal.isStrEq] at hbody
            | arr xs => simp [JVal.isStrEq] at hbody
            | obj kvs2 => simp [JVal.isStrEq] at hbody
        | null => dsimp only at hbody; cases hbody
        | bool b => dsimp only at hbody; cases hbody
        | num n => dsimp only at hbody; cases hbody
        | str s => dsimp only at hbody; cases hbody
        | arr xs => dsimp only at hbody; cases hbody
    | null => cases h
    | bool b => cases h
    | num n => cases h
    | str s => cases h
    | arr xs => cases h
  | cons q qs ih =>
    simp only [List.cons_append, partsLoop, List.append_eq, ih]

/-- C10 witness: text/plain parts decoding to A, empty-data, B produce
the same loop output as A, B alone, and the full extraction of the
three-part payload is the two-element join A newline B. -/
theorem c10_witness :
    emptyDataPlainPart (.obj [("mimeType", .str "text/plain"),
        ("body", .obj [("data", .str "")])]) = true ∧
    partsLoop [
      .obj [("mimeType", .str "text/plain"), ("body", .obj [("data", .str "QQ")])],
      .obj [("mimeType", .str "text/plain"), ("body", .obj [("data", .str "")])],
      .obj [("mimeType", .str "text/plain"), ("body", .obj [("data", .str "Qg")])]] =
      partsLoop [
        .obj [("mimeType", .str "text/plain"), ("body", .obj [("data", .str "QQ")])],
        .obj [("mimeType", .str "text/plain"), ("body", .obj [("data", .str "Qg")])]] ∧
    extract_text_from_payload (.obj [("parts", .arr [
      .obj [("mimeType", .str "text/plain"), ("body", .obj [("data", .str "QQ")])],
      .obj [("mimeType", .str "text/plain"), ("body", .obj [("data", .str "")])],
      .obj [("mimeType", .str "text/plain"), ("body", .obj [("data", .str "Qg")])]])]) =
      .ok "A\nB" := by
  refine ⟨by rfl, c10_empty_data_part_skipped
    [.obj [("mimeType", .str "text/plain"), ("body", .obj [("data", .str "QQ")])]]
    [.obj [("mimeType", .str "text/plain"), ("body", .obj [("data", .str "Qg")])]]
    (.obj [("mimeType", .str "text/plain"), ("body", .obj [("data", .str "")])])
    (by rfl), by rfl⟩

/-- C5: for every payload a successful parse carries the extracted text
through unchanged when its length is at most 500 characters, and truncates
to the first 500 characters followed by the ellipsis marker when it is
strictly longer. -/
theorem c5_truncation (tz : Int) (md : List (String × JVal)) (r : MessageRecord)
    (hok : parse_message tz (.obj md) = .ok r) :
    ∃ t, extract_text_from_payload (dictGetD md "payload" (.obj [])) = .ok t ∧
      (t.length ≤ 500 → r.messageText = t) ∧
      (500 < t.length → r.messageText = t.take 500 ++ "...") := by
  rcases (parseMessageObj_ok_iff tz md r).mp hok with ⟨hv, ts, sv, sj, tx, h1, h2, h3, h4, h5, h6⟩
  refine ⟨tx, h5, fun hle => ?_, fun hgt => ?_⟩
  · rw [h6]
    show (if 500 < tx.length then tx.take 500 ++ "..." else tx) = tx
    rw [if_neg (by omega)]
  · rw [h6]
    show (if 500 < tx.length then tx.take 500 ++ "..." else tx) = tx.take 500 ++ "..."
    rw [if_pos hgt]

/-- C5 witness: a payload whose body decodes to the two-character text hi
is carried through unchanged. -/
theorem c5_witness :
    ∃ t, extract_text_from_payload (dictGetD
        [("payload", JVal.obj [("mimeType", JVal.str "text/plain"),
          ("body", JVal.obj [("data", JVal.str "aGk")])])] "payload" (.obj [])) = .ok t ∧
      (t.length ≤ 500 → ({ messageId := JVal.str "", threadId := JVal.str "",
                            messageTimestamp := "", labelIds := JVal.arr [],
                            sender := JVal.str "", subject := JVal.str "",
                            messageText := "hi" } : MessageRecord).messageText = t) ∧
      (500 < t.length → ({ messageId := JVal.str "", threadId := JVal.str "",
                           messageTimestamp := "", labelIds := JVal.arr [],
                           sender := JVal.str "", subject := JVal.str "",
                           messageText := "hi" } : MessageRecord).messageText =
            t.take 500 ++ "...") :=
  c5_truncation 0
    [("payload", JVal.obj [("mimeType", JVal.str "text/plain"),
      ("body", JVal.obj [("data", JVal.str "aGk")])])]
    { messageId := JVal.str "", threadId := JVal.str "", messageTimestamp := "",
      labelIds := JVal.arr [], sender := JVal.str "", subject := JVal.str "",
      messageText := "hi" }
    (by rfl)

theorem extract_total (kvs : List (String × JVal))
    (hwfp : wfParts (dictLookup kvs "parts") = true)
    (hwfb : optObj (dictLookup kvs "body") = true) :
    ∃ t, extract_text_from_payload (.obj kvs) = .ok t := by
  cases hp : dictLookup kvs "parts" with
  | some v =>
    rw [hp] at hwfp
    cases v with
    | arr ps =>
      refine ⟨String.intercalate "\n" (plainPartTexts ps), ?_⟩
      rw [extract_of_parts kvs _ hp]
      simp only [pyIter, exceptBind_ok_left,
        partsLoop_wf ps (by simpa [wfParts] using hwfp)]
      rfl
    | null => simp [wfParts] at hwfp
    | bool b => simp [wfParts] at hwfp
    | num n => simp [wfParts] at hwfp
    | str s => simp [wfParts] at hwfp
    | obj kvs2 => simp [wfParts] at hwfp
  | none =>
    cases htr : (JVal.obj kvs).truthy with
    | false =>
      refine ⟨"", ?_⟩
      unfold extract_text_from_payload
      rw [htr]
      rfl
    | true =>
      unfold extract_text_from_payload
      rw [htr]
      simp only [if_true, pyContains, hp, Option.isSome, exceptBind_ok_left, if_false,
        Bool.false_eq_true, JVal.get, Option.getD]
      cases hmt : (dictGetD kvs "mimeType" .null).isStrEq "text/plain" with
      | false =>
        refine ⟨"", ?_⟩
        rfl
      | true =>
        simp only [hmt, if_true]
        cases hb : dictLookup kvs "body" with
        | none =>
          rw [show dictGetD kvs "body" (.obj []) = .obj [] by
            unfold dictGetD; rw [hb]; rfl]
          exact ⟨"", by rfl⟩
        | some bv =>
          rw [hb] at hwfb
          cases bv with
          | obj bkv =>
            rw [show dictGetD kvs "body" (.obj []) = .obj bkv by
              unfold dictGetD; rw [hb]; rfl]
            simp only [JVal.get, exceptBind_ok_left]
            cases hdt : (dictGetD bkv "data" (.str "")).truthy with
            | false => exact ⟨"", by rfl⟩
            | true =>
              simp only [hdt, if_true]
              cases hdec : tryDecode (dictGetD bkv "data" (.str "")) with
              | some s => exact ⟨s, by simp only [hdec]; rfl⟩
              | none => exact ⟨"", by simp only [hdec]; rfl⟩
          | null => simp [optObj, JVal.isObjB] at hwfb
          | bool b => simp [optObj, JVal.isObjB] at hwfb
          | num n => simp [optObj, JVal.isObjB] at hwfb
          | str s => simp [optObj, JVal.isObjB] at hwfb
          | arr xs => simp [optObj, JVal.isObjB] at hwfb

theorem optStr_getD (o : Option JVal) (h : optStr o = true) (d : JVal)
    (hd : d.isStrB = true) : (o.getD d).isStrB = true := by
  cases o with
  | none => exact hd
  | some v => exact h

theorem optArr_getD (o : Option JVal) (h : optArr o = true) (d : JVal)
    (hd : d.isArrB = true) : (o.getD d).isArrB = true := by
  cases o with
  | none => exact hd
  | some v => exact h

/-- C1 (amended): on every payload whose present fields are well shaped
(wfMessage: id, threadId string when present, labelIds a list when
present, payload a dict with well-shaped headers, parts and body, and a
falsy or parsable-and-representable internalDate), parse_message raises
no error and returns a record whose seven fields are all type-correct:
messageId, threadId, sender and subject are strings, labelIds is a list,
and messageTimestamp and messageText are strings by construction, with
absent source fields degrading to the documented empty defaults.  The
amendment adds the well-formedness hypotheses, without which the claim is
false (see the counterexample). -/
theorem c1_wellformed_total (tz : Int) (md : List (String × JVal))
    (hwf : wfMessage tz md = true) :
    ∃ r, parse_message tz (.obj md) = .ok r ∧
      r.messageId.isStrB = true ∧ r.threadId.isStrB = true ∧
      r.labelIds.isArrB = true ∧ r.sender.isStrB = true ∧ r.subject.isStrB = true ∧
      (dictLookup md "id" = none → r.messageId = .str "") ∧
      (dictLookup md "threadId" = none → r.threadId = .str "") ∧
      (dictLookup md "labelIds" = none → r.labelIds = .arr []) ∧
      (dictLookup md "internalDate" = none → r.messageTimestamp = "") := by
  unfold wfMessage at hwf
  simp only [Bool.and_eq_true] at hwf
  obtain ⟨⟨⟨⟨hid, hthread⟩, hlab⟩, hpay⟩, hts⟩ := hwf
  have hshapes : ∃ pkv, dictGetD md "payload" (.obj []) = .obj pkv ∧
      wfHeaders (dictLookup pkv "headers") = true ∧
      wfParts (dictLookup pkv "parts") = true ∧
      optObj (dictLookup pkv "body") = true := by
    cases hp : dictLookup md "payload" with
    | none =>
      exact ⟨[], by unfold dictGetD; rw [hp]; rfl, rfl, rfl, rfl⟩
    | some pv =>
      rw [hp] at hpay
      cases pv with
      | obj pkv =>
        simp only [wfPayload, Bool.and_eq_true] at hpay
        obtain ⟨⟨h1, h2⟩, h3⟩ := hpay
        exact ⟨pkv, by unfold dictGetD; rw [hp]; rfl, h1, h2, h3⟩
      | null => simp [wfPayload] at hpay
      | bool b => simp [wfPayload] at hpay
      | num n => simp [wfPayload] at hpay
      | str s => simp [wfPayload] at hpay
      | arr xs => simp [wfPayload] at hpay
  obtain ⟨pkv, hpkv, hwfh, hwfp, hwfb⟩ := hshapes
  have hhs : ∃ hs, dictGetD pkv "headers" (.arr []) = .arr hs ∧ hs.all wfHeader = true := by
    cases hh : dictLookup pkv "headers" with
    | none => exact ⟨[], by unfold dictGetD; rw [hh]; rfl, rfl⟩
    | some hv =>
      rw [hh] at hwfh
      cases hv with
      | arr hs =>
        exact ⟨hs, by unfold dictGetD; rw [hh]; rfl, by simpa [wfHeaders] using hwfh⟩
      | null => simp [wfHeaders] at hwfh
      | bool b => simp [wfHeaders] at hwfh
      | num n => simp [wfHeaders] at hwfh
      | str s => simp [wfHeaders] at hwfh
      | obj kvs2 => simp [wfHeaders] at hwfh
  obtain ⟨hs, hhs1, hhs2⟩ := hhs
  have htsex : ∃ s, timestampExpr tz md = .ok s ∧
      (dictLookup md "internalDate" = none → s = "") := by
    unfold wfTimestamp at hts
    cases hlk : dictLookup md "internalDate" with
    | none =>
      refine ⟨"", timestampExpr_falsy tz md ?_, fun _ => rfl⟩
      unfold dictGetD
      rw [hlk]
      rfl
    | some v =>
      cases htr : v.truthy with
      | false =>
        refine ⟨"", timestampExpr_falsy tz md ?_, fun hc => Option.noConfusion hc⟩
        unfold dictGetD
        rw [hlk]
        exact htr
      | true =>
        rw [hlk] at hts
        simp only [Option.getD, htr, Bool.not_true, Bool.false_or] at hts
        cases hint : pyInt v with
        | ok n =>
          rw [hint] at hts
          dsimp only at hts
          cases hfmt : pyFromtimestampFormat tz n with
          | ok s =>
            refine ⟨s, ?_, fun hc => Option.noConfusion hc⟩
            rw [timestampExpr_truthy tz md (by unfold dictGetD; rw [hlk]; exact htr)]
            rw [show dictGetD md "internalDate" (.str "0") = v by
              unfold dictGetD; rw [hlk]; rfl]
            rw [hint, exceptBind_ok_left, hfmt]
          | error e =>
            rw [hfmt] at hts
            simp [Except.isOk, Except.toBool] at hts
        | error e =>
          rw [hint] at hts
          dsimp only at hts
          cases hts
  obtain ⟨ts, hts1, hts2⟩ := htsex
  obtain ⟨tx, htx⟩ := extract_total pkv hwfp hwfb
  refine ⟨_, (parseMessageObj_ok_iff tz md _).mpr
    ⟨.arr hs, ts, claimHeaderValue hs "From", claimHeaderValue hs "Subject", tx,
      by rw [hpkv]; simp only [JVal.get]; rw [hhs1],
      hts1,
      get_header_value_wf _ _ hhs2,
      get_header_value_wf _ _ hhs2,
      by rw [hpkv]; exact htx,
      rfl⟩,
    ?_, ?_, ?_, ?_, ?_, ?_, ?_, ?_, ?_⟩
  · exact optStr_getD _ hid _ rfl
  · exact optStr_getD _ hthread _ rfl
  · exact optArr_getD _ hlab _ rfl
  · exact (headerLoop_wf "From" hs hhs2).2
  · exact (headerLoop_wf "Subject" hs hhs2).2
  · intro h
    show dictGetD md "id" (.str "") = .str ""
    unfold dictGetD
    rw [h]
    rfl
  · intro h
    show dictGetD md "threadId" (.str "") = .str ""
    unfold dictGetD
    rw [h]
    rfl
  · intro h
    show dictGetD md "labelIds" (.arr []) = .arr []
    unfold dictGetD
    rw [h]
    rfl
  · exact hts2

/-- C1 counterexample: the claim quantifies over malformed payloads too,
but a payload whose internalDate is the non-numeric truthy string x makes
parse_message raise ValueError from int(), so it is not error-free on
every payload. -/
theorem c1_counterexample :
    parse_message 0 (.obj [("internalDate", JVal.str "x")]) = .error PyErr.valueError := by
  rfl

/-- C1 witness: the complete scenario payload of the spec is well formed,
parses without error and every record field is type-correct. -/
theorem c1_witness :
    ∃ r, parse_message 0 (.obj [("id", JVal.str "m1"), ("threadId", JVal.str "t1"),
        ("internalDate", JVal.str "1672531200000"),
        ("labelIds", JVal.arr [JVal.str "INBOX"]),
        ("payload", JVal.obj [
          ("headers", JVal.arr [
            JVal.obj [("name", JVal.str "From"), ("value", JVal.str "a@b.com")],
            JVal.obj [("name", JVal.str "Subject"), ("value", JVal.str "Hi")]]),
          ("mimeType", JVal.str "text/plain"),
          ("body", JVal.obj [("data", JVal.str "aGk")])])]) = .ok r ∧
      r.messageId.isStrB = true ∧ r.threadId.isStrB = true ∧
      r.labelIds.isArrB = true ∧ r.sender.isStrB = true ∧ r.subject.isStrB = true ∧
      (dictLookup [("id", JVal.str "m1"), ("threadId", JVal.str "t1"),
        ("internalDate", JVal.str "1672531200000"),
        ("labelIds", JVal.arr [JVal.str "INBOX"]),
        ("payload", JVal.obj [
          ("headers", JVal.arr [
            JVal.obj [("name", JVal.str "From"), ("value", JVal.str "a@b.com")],
            JVal.obj [("name", JVal.str "Subject"), ("value", JVal.str "Hi")]]),
          ("mimeType", JVal.str "text/plain"),
          ("body", JVal.obj [("data", JVal.str "aGk")])])] "id" = none →
        r.messageId = .str "") ∧
      (dictLookup [("id", JVal.str "m1"), ("threadId", JVal.str "t1"),
        ("internalDate", JVal.str "1672531200000"),
        ("labelIds", JVal.arr [JVal.str "INBOX"]),
        ("payload", JVal.obj [
          ("headers", JVal.arr [
            JVal.obj [("name", JVal.str "From"), ("value", JVal.str "a@b.com")],
            JVal.obj [("name", JVal.str "Subject"), ("value", JVal.str "Hi")]]),
          ("mimeType", JVal.str "text/plain"),
          ("body", JVal.obj [("data", JVal.str "aGk")])])] "threadId" = none →
        r.threadId = .str "") ∧
      (dictLookup [("id", JVal.str "m1"), ("threadId", JVal.str "t1"),
        ("internalDate", JVal.str "1672531200000"),
        ("labelIds", JVal.arr [JVal.str "INBOX"]),
        ("payload", JVal.obj [
          ("headers", JVal.arr [
            JVal.obj [("name", JVal.str "From"), ("value", JVal.str "a@b.com")],
            JVal.obj [("name", JVal.str "Subject"), ("value", JVal.str "Hi")]]),
          ("mimeType", JVal.str "text/plain"),
          ("body", JVal.obj [("data", JVal.str "aGk")])])] "labelIds" = none →
        r.labelIds = .arr []) ∧
      (dictLookup [("id", JVal.str "m1"), ("threadId", JVal.str "t1"),
        ("internalDate", JVal.str "1672531200000"),
        ("labelIds", JVal.arr [JVal.str "INBOX"]),
        ("payload", JVal.obj [
          ("headers", JVal.arr [
            JVal.obj [("name", JVal.str "From"), ("value", JVal.str "a@b.com")],
            JVal.obj [("name", JVal.str "Subject"), ("value", JVal.str "Hi")]]),
          ("mimeType", JVal.str "text/plain"),
          ("body", JVal.obj [("data", JVal.str "aGk")])])] "internalDate" = none →
        r.messageTimestamp = "") :=
  c1_wellformed_total 0
    [("id", JVal.str "m1"), ("threadId", JVal.str "t1"),
     ("internalDate", JVal.str "1672531200000"),
     ("labelIds", JVal.arr [JVal.str "INBOX"]),
     ("payload", JVal.obj [
       ("headers", JVal.arr [
         JVal.obj [("name", JVal.str "From"), ("value", JVal.str "a@b.com")],
         JVal.obj [("name", JVal.str "Subject"), ("value", JVal.str "Hi")]]),
       ("mimeType", JVal.str "text/plain"),
       ("body", JVal.obj [("data", JVal.str "aGk")])])]
    (by rfl)

theorem b64CharVal_urlChar : ∀ v : Nat, v < 64 →
    b64CharVal (b64UrlChar v) = some v ∧ b64UrlChar v ≠ '=' := by decide

theorem bytesOfTail_two (buf : Nat) : bytesOfTail 2 buf = [buf / 16] := rfl

theorem bytesOfTail_three (buf : Nat) : bytesOfTail 3 buf = [buf / 1024, buf / 4 % 256] := by
  rfl

theorem a2bLoop_cons_val (c : Char) (rest : List Char) (q buf pads v : Nat)
    (hne : c ≠ '=') (hv : b64CharVal c = some v) (hq : q ≠ 3) :
    a2bLoop (c :: rest) q buf pads = a2bLoop rest (q + 1) (buf * 64 + v) pads := by
  simp only [a2bLoop]
  rw [if_neg hne, hv]
  dsimp only
  rw [if_neg hq]

theorem a2bLoop_cons_val3 (c : Char) (rest : List Char) (buf pads v : Nat)
    (hne : c ≠ '=') (hv : b64CharVal c = some v) :
    a2bLoop (c :: rest) 3 buf pads =
      Except.map (fun bs => bytesOfQuad (buf * 64 + v) ++ bs) (a2bLoop rest 0 0 pads) := by
  simp only [a2bLoop]
  rw [if_neg hne, hv]
  dsimp only
  rw [if_pos trivial]

theorem a2bLoop_pad_continue (rest : List Char) (q buf pads : Nat)
    (h : ¬(2 ≤ q ∧ 4 ≤ q + pads + 1)) :
    a2bLoop ('=' :: rest) q buf pads = a2bLoop rest q buf (pads + 1) := by
  simp only [a2bLoop]
  rw [if_pos trivial, if_neg h]

theorem a2bLoop_pad_done (rest : List Char) (q buf pads : Nat)
    (h : 2 ≤ q ∧ 4 ≤ q + pads + 1) :
    a2bLoop ('=' :: rest) q buf pads = .ok (bytesOfTail q buf) := by
  simp only [a2bLoop]
  rw [if_pos trivial, if_pos h]

/-- Base64url decoding through the code path (append three pads, then the
non-strict scan) inverts unpadded base64url encoding of any byte list. -/
theorem b64_roundtrip : ∀ (bs : List Nat), (∀ b ∈ bs, b < 256) →
    a2bLoop (b64UrlEncodeNoPad bs ++ ['=', '=', '=']) 0 0 0 = .ok bs
  | [], _ => by rfl
  | [b1], h => by
    have hb1 : b1 < 256 := h b1 (by simp)
    obtain ⟨hv1, hne1⟩ := b64CharVal_urlChar (b1 / 4) (by omega)
    obtain ⟨hv2, hne2⟩ := b64CharVal_urlChar (b1 % 4 * 16) (by omega)
    simp only [b64UrlEncodeNoPad, List.cons_append, List.nil_append]
    rw [a2bLoop_cons_val _ _ _ _ _ _ hne1 hv1 (by omega),
        a2bLoop_cons_val _ _ _ _ _ _ hne2 hv2 (by omega),
        a2bLoop_pad_continue _ _ _ _ (by omega),
        a2bLoop_pad_done _ _ _ _ (by omega),
        bytesOfTail_two]
    have : (0 * 64 + b1 / 4) * 64 + b1 % 4 * 16 = b1 * 16 := by omega
    rw [this]
    have : b1 * 16 / 16 = b1 := by omega
    rw [this]
  | [b1, b2], h => by
    have hb1 : b1 < 256 := h b1 (by simp)
    have hb2 : b2 < 256 := h b2 (by simp)
    obtain ⟨hv1, hne1⟩ := b64CharVal_urlChar (b1 / 4) (by omega)
    obtain ⟨hv2, hne2⟩ := b64CharVal_urlChar (b1 % 4 * 16 + b2 / 16) (by omega)
    obtain ⟨hv3, hne3⟩ := b64CharVal_urlChar (b2 % 16 * 4) (by omega)
    simp only [b64UrlEncodeNoPad, List.cons_append, List.nil_append]
    rw [a2bLoop_cons_val _ _ _ _ _ _ hne1 hv1 (by omega),
        a2bLoop_cons_val _ _ _ _ _ _ hne2 hv2 (by omega),
        a2bLoop_cons_val _ _ _ _ _ _ hne3 hv3 (by omega),
        a2bLoop_pad_done _ _ _ _ (by omega),
        bytesOfTail_three]
    have e1 : ((0 * 64 + b1 / 4) * 64 + (b1 % 4 * 16 + b2 / 16)) * 64 + b2 % 16 * 4 =
        b1 * 1024 + b2 * 4 := by omega
    rw [e1]
    have e2 : (b1 * 1024 + b2 * 4) / 1024 = b1 := by omega
    have e3 : (b1 * 1024 + b2 * 4) / 4 % 256 = b2 := by omega
    rw [e2, e3]
  | b1 :: b2 :: b3 :: rest, h => by
    have hb1 : b1 < 256 := h b1 (by simp)
    have hb2 : b2 < 256 := h b2 (by simp)
    have hb3 : b3 < 256 := h b3 (by simp)
    have ih := b64_roundtrip rest (fun b hb => h b (by simp [hb]))
    obtain ⟨hv1, hne1⟩ := b64CharVal_urlChar (b1 / 4) (by omega)
    obtain ⟨hv2, hne2⟩ := b64CharVal_urlChar (b1 % 4 * 16 + b2 / 16) (by omega)
    obtain ⟨hv3, hne3⟩ := b64CharVal_urlChar (b2 % 16 * 4 + b3 / 64) (by omega)
    obtain ⟨hv4, hne4⟩ := b64CharVal_urlChar (b3 % 64) (by omega)
    simp only [b64UrlEncodeNoPad, List.cons_append]
    rw [a2bLoop_cons_val _ _ _ _ _ _ hne1 hv1 (by omega),
        a2bLoop_cons_val _ _ _ _ _ _ hne2 hv2 (by omega),
        a2bLoop_cons_val _ _ _ _ _ _ hne3 hv3 (by omega),
        a2bLoop_cons_val3 _ _ _ _ _ hne4 hv4,
        ih]
    have e1 : (((0 * 64 + b1 / 4) * 64 + (b1 % 4 * 16 + b2 / 16)) * 64 +
        (b2 % 16 * 4 + b3 / 64)) * 64 + b3 % 64 =
        b1 * 65536 + b2 * 256 + b3 := by omega
    simp only [Except.map, bytesOfQuad, e1]
    have e2 : (b1 * 65536 + b2 * 256 + b3) / 65536 = b1 := by omega
    have e3 : (b1 * 65536 + b2 * 256 + b3) / 256 % 256 = b2 := by omega
    have e4 : (b1 * 65536 + b2 * 256 + b3) % 256 = b3 := by omega
    rw [e2, e3, e4]
    rfl


theorem char_toNat_valid (c : Char) :
    c.toNat < 55296 ∨ (57343 < c.toNat ∧ c.toNat < 1114112) := by
  rcases c.valid with h | ⟨h1, h2⟩
  · exact Or.inl (UInt32.toNat_lt_of_lt (by decide) h)
  · exact Or.inr ⟨UInt32.lt_toNat_of_lt (by decide) h1, UInt32.toNat_lt_of_lt (by decide) h2⟩

set_option maxRecDepth 8192

theorem utf8dl_one (b : Nat) (rest : List Nat) (h : b < 128) :
    utf8DecodeList (b :: rest) =
      (utf8DecodeList rest).map (fun cs => Char.ofNat b :: cs) := by
  rw [utf8DecodeList.eq_def]
  dsimp only
  rw [if_pos h]

theorem utf8dl_two (b b2 : Nat) (rest : List Nat)
    (h : 194 ≤ b ∧ b < 224) (hc : 128 ≤ b2 ∧ b2 < 192) :
    utf8DecodeList (b :: b2 :: rest) =
      (utf8DecodeList rest).map (fun cs => Char.ofNat ((b - 192) * 64 + (b2 - 128)) :: cs) := by
  rw [utf8DecodeList.eq_def]
  dsimp only
  rw [if_neg (by omega), if_pos h, if_pos hc]

theorem utf8dl_three (b b2 b3 : Nat) (rest : List Nat)
    (h : 224 ≤ b ∧ b < 240)
    (hc : 128 ≤ b2 ∧ b2 < 192 ∧ 128 ≤ b3 ∧ b3 < 192)
    (hr : ¬((b - 224) * 4096 + (b2 - 128) * 64 + (b3 - 128) < 2048 ∨
      (55296 ≤ (b - 224) * 4096 + (b2 - 128) * 64 + (b3 - 128) ∧
        (b - 224) * 4096 + (b2 - 128) * 64 + (b3 - 128) < 57344))) :
    utf8DecodeList (b :: b2 :: b3 :: rest) =
      (utf8DecodeList rest).map
        (fun cs => Char.ofNat ((b - 224) * 4096 + (b2 - 128) * 64 + (b3 - 128)) :: cs) := by
  rw [utf8DecodeList.eq_def]
  dsimp only
  rw [if_neg (by omega), if_neg (by omega), if_pos h, if_pos hc, if_neg hr]

theorem utf8dl_four (b b2 b3 b4 : Nat) (rest : List Nat)
    (h : 240 ≤ b ∧ b < 245)
    (hc : 128 ≤ b2 ∧ b2 < 192 ∧ 128 ≤ b3 ∧ b3 < 192 ∧ 128 ≤ b4 ∧ b4 < 192)
    (hr : ¬((b - 240) * 262144 + (b2 - 128) * 4096 + (b3 - 128) * 64 + (b4 - 128) < 65536 ∨
      1114112 ≤ (b - 240) * 262144 + (b2 - 128) * 4096 + (b3 - 128) * 64 + (b4 - 128))) :
    utf8DecodeList (b :: b2 :: b3 :: b4 :: rest) =
      (utf8DecodeList rest).map
        (fun cs => Char.ofNat ((b - 240) * 262144 + (b2 - 128) * 4096 +
          (b3 - 128) * 64 + (b4 - 128)) :: cs) := by
  rw [utf8DecodeList.eq_def]
  dsimp only
  rw [if_neg (by omega), if_neg (by omega), if_neg (by omega), if_pos h, if_pos hc,
      if_neg hr]

theorem utf8_decode_encode_scalar (n : Nat) (rest : List Nat)
    (hval : n < 55296 ∨ (57343 < n ∧ n < 1114112)) :
    utf8DecodeList (utf8EncodeScalar n ++ rest) =
      (utf8DecodeList rest).map (fun cs => Char.ofNat n :: cs) := by
  unfold utf8EncodeScalar
  by_cases h1 : n < 128
  · rw [if_pos h1]
    simp only [List.cons_append, List.nil_append]
    rw [utf8dl_one n rest h1]
  · rw [if_neg h1]
    by_cases h2 : n < 2048
    · rw [if_pos h2]
      simp only [List.cons_append, List.nil_append]
      rw [utf8dl_two _ _ rest (by omega) (by omega)]
      rw [show (192 + n / 64 - 192) * 64 + (128 + n % 64 - 128) = n by omega]
    · rw [if_neg h2]
      by_cases h3 : n < 65536
      · rw [if_pos h3]
        simp only [List.cons_append, List.nil_append]
        rw [utf8dl_three _ _ _ rest (by omega) (by omega) (by
          rw [show (224 + n / 4096 - 224) * 4096 + (128 + n / 64 % 64 - 128) * 64 +
            (128 + n % 64 - 128) = n by omega]
          omega)]
        rw [show (224 + n / 4096 - 224) * 4096 + (128 + n / 64 % 64 - 128) * 64 +
          (128 + n % 64 - 128) = n by omega]
      · rw [if_neg h3]
        simp only [List.cons_append, List.nil_append]
        rw [utf8dl_four _ _ _ _ rest (by omega) (by omega) (by
          rw [show (240 + n / 262144 - 240) * 262144 + (128 + n / 4096 % 64 - 128) * 4096 +
            (128 + n / 64 % 64 - 128) * 64 + (128 + n % 64 - 128) = n by omega]
          omega)]
        rw [show (240 + n / 262144 - 240) * 262144 + (128 + n / 4096 % 64 - 128) * 4096 +
          (128 + n / 64 % 64 - 128) * 64 + (128 + n % 64 - 128) = n by omega]

theorem utf8_roundtrip_list (cs : List Char) :
    utf8DecodeList (utf8EncodeList cs) = some cs := by
  induction cs with
  | nil => rfl
  | cons c rest ih =>
    show utf8DecodeList (utf8EncodeChar c ++ utf8EncodeList rest) = _
    rw [utf8EncodeChar, utf8_decode_encode_scalar c.toNat _ (char_toNat_valid c), ih]
    rw [Char.ofNat_toNat]
    rfl

theorem utf8EncodeScalar_lt (n : Nat) (hval : n < 1114112) :
    ∀ b ∈ utf8EncodeScalar n, b < 256 := by
  intro b hb
  unfold utf8EncodeScalar at hb
  by_cases h1 : n < 128
  · rw [if_pos h1] at hb
    simp only [List.mem_singleton] at hb
    omega
  · rw [if_neg h1] at hb
    by_cases h2 : n < 2048
    · rw [if_pos h2] at hb
      simp only [List.mem_cons, List.not_mem_nil, or_false] at hb
      rcases hb with hb | hb <;> omega
    · rw [if_neg h2] at hb
      by_cases h3 : n < 65536
      · rw [if_pos h3] at hb
        simp only [List.mem_cons, List.not_mem_nil, or_false] at hb
        rcases hb with hb | hb | hb <;> omega
      · rw [if_neg h3] at hb
        simp only [List.mem_cons, List.not_mem_nil, or_false] at hb
        rcases hb with hb | hb | hb | hb <;> omega

theorem utf8EncodeList_lt (cs : List Char) : ∀ b ∈ utf8EncodeList cs, b < 256 := by
  induction cs with
  | nil =>
    intro b hb
    cases hb
  | cons c rest ih =>
    intro b hb
    have hm : b ∈ utf8EncodeChar c ++ utf8EncodeList rest := hb
    rw [List.mem_append] at hm
    rcases hm with h | h
    · have hv := char_toNat_valid c
      exact utf8EncodeScalar_lt c.toNat (by omega) b h
    · exact ih b h

/-- C7: encoding any text as base64url with the trailing padding removed
and then decoding it through the tolerant decoder of the Normalizer (pad
with equals signs, run the non-strict scan, decode as utf-8) reproduces
the original text. -/
theorem c7_roundtrip (s : String) :
    tryDecode (.str (String.mk (b64UrlEncodeNoPad (utf8Encode s)))) = some s := by
  unfold tryDecode
  dsimp only
  rw [b64_roundtrip (utf8Encode s) (utf8EncodeList_lt s.data)]
  dsimp only
  rw [show utf8Encode s = utf8EncodeList s.data from rfl]
  rw [utf8_roundtrip_list s.data]
  simp only [Option.map]

theorem taskErr_none_iff {α : Type} (t : Except OrchErr α) :
    taskErr t = none ↔ t.isOk = true := by
  cases t <;> simp [taskErr, Except.isOk, Except.toBool]

theorem findSome?_of_unique {α β : Type} (l : List α) (f : α → Option β) (e : β) (i : α)
    (hmemi : i ∈ l) (hi : f i = some e) (hall : ∀ x, f x = none ∨ f x = some e) :
    l.findSome? f = some e := by
  induction l with
  | nil => cases hmemi
  | cons x xs ih =>
    rw [List.findSome?_cons]
    cases hfx : f x with
    | some y =>
      rcases hall x with h | h
      · rw [h] at hfx
        cases hfx
      · rw [h] at hfx
        cases hfx
        rfl
    | none =>
      rcases List.mem_cons.mp hmemi with h | h
      · subst h
        rw [hfx] at hi
        cases hi
      · exact ih h

theorem mapM_ok_map {E α β : Type} (f : α → Except E β) :
    ∀ (l : List α) (out : List β), l.mapM f = .ok out → l.map f = out.map Except.ok := by
  intro l
  induction l with
  | nil =>
    intro out h
    simp only [List.mapM_nil] at h
    cases h
    rfl
  | cons x xs ih =>
    intro out h
    rw [List.mapM_cons] at h
    cases hx : f x with
    | error e =>
      rw [hx] at h
      simp only [exceptBind_err_left] at h
      cases h
    | ok b =>
      rw [hx] at h
      simp only [exceptBind_ok_left] at h
      cases hxs : xs.mapM f with
      | error e =>
        rw [hxs] at h
        simp only [exceptBind_err_left] at h
        cases h
      | ok bs =>
        rw [hxs] at h
        simp only [exceptBind_ok_left, exceptPure_ok] at h
        cases h
        simp only [List.map_cons, hx, ih bs hxs]

theorem gatherList_ok {α : Type} (ord : List Nat) (tasks : List (Except OrchErr α))
    (out : List α) (h : gatherList ord tasks = .ok out) : tasks = out.map Except.ok := by
  unfold gatherList at h
  cases hf : ord.findSome? (fun i => (tasks.get? i).bind taskErr) with
  | some e =>
    rw [hf] at h
    cases h
  | none =>
    rw [hf] at h
    dsimp only at h
    have := mapM_ok_map (fun t => t) tasks out h
    simpa using this

theorem gatherList_single_error {α : Type} (ord : List Nat)
    (tasks : List (Except OrchErr α)) (j : Nat) (e : OrchErr)
    (hj : tasks.get? j = some (.error e)) (hmem : j ∈ ord)
    (hothers : ∀ k, k ≠ j → ∀ t, tasks.get? k = some t → t.isOk = true) :
    gatherList ord tasks = .error e := by
  unfold gatherList
  rw [findSome?_of_unique ord _ e j hmem (by rw [hj]; rfl) ?hall]
  case hall =>
    intro k
    by_cases hk : k = j
    · subst hk
      rw [hj]
      exact Or.inr rfl
    · left
      cases ht : tasks.get? k with
      | none => rfl
      | some t =>
        have := hothers k hk t ht
        simp only [Option.bind]
        cases t with
        | ok a => rfl
        | error e2 => simp [Except.isOk, Except.toBool] at this

theorem gather3_ok {α β γ : Type} (ord : List Nat) (t1 : Except OrchErr α)
    (t2 : Except OrchErr β) (t3 : Except OrchErr γ) (a : α) (b : β) (c : γ)
    (h : gather3 ord t1 t2 t3 = .ok (a, b, c)) :
    t1 = .ok a ∧ t2 = .ok b ∧ t3 = .ok c := by
  unfold gather3 at h
  cases hf : ord.findSome? (fun i =>
      if i = 0 then taskErr t1 else if i = 1 then taskErr t2
      else if i = 2 then taskErr t3 else none) with
  | some e =>
    rw [hf] at h
    cases h
  | none =>
    rw [hf] at h
    dsimp only at h
    cases t1 <;> cases t2 <;> cases t3 <;> simp_all

theorem gather3_all_ok {α β γ : Type} (ord : List Nat) (t1 : Except OrchErr α)
    (t2 : Except OrchErr β) (t3 : Except OrchErr γ) (a : α) (b : β) (c : γ)
    (h1 : t1 = .ok a) (h2 : t2 = .ok b) (h3 : t3 = .ok c) :
    gather3 ord t1 t2 t3 = .ok (a, b, c) := by
  subst h1 h2 h3
  unfold gather3
  rw [show ord.findSome? (fun i =>
      if i = 0 then taskErr (Except.ok a) else if i = 1 then taskErr (Except.ok b)
      else if i = 2 then taskErr (Except.ok c) else none) = none from by
    rw [List.findSome?_eq_none_iff]
    intro x _
    rcases Nat.lt_or_ge x 3 with hx | hx
    · interval_cases x <;> rfl
    · rw [if_neg (by omega), if_neg (by omega), if_neg (by omega)]]

theorem map_liftPy_ok (tz : Int) : ∀ (ds : List JVal) (out : List MessageRecord),
    ds.map (fun m => liftPy (parse_message tz m)) = out.map Except.ok →
    ds.map (parse_message tz) = out.map Except.ok
  | [], [], _ => rfl
  | [], o :: os, h => by cases h
  | d :: ds2, [], h => by cases h
  | d :: ds2, o :: os, h => by
    simp only [List.map_cons, List.cons.injEq] at h ⊢
    obtain ⟨h1, h2⟩ := h
    refine ⟨?_, map_liftPy_ok tz ds2 os h2⟩
    cases hp : parse_message tz d with
    | ok rec =>
      rw [hp] at h1
      simpa [liftPy] using h1
    | error e =>
      rw [hp] at h1
      cases h1

/-- C3: any single request failure in either phase aborts the whole
orchestration: a successful run certifies that every request of both
phases succeeded (no partial result can be returned), and when exactly
one phase-2 detail fetch fails while everything else succeeds, the
caller observes precisely that error and no FetchResult, whatever the
completion orders were (phase 2 completion order must cover the indices). -/
theorem c3_failfast (tz : Int) (env : GmailEnv) (ord1 ord2 : List Nat) :
    (∀ r, fetch_gmail_data_async tz env ord1 ord2 = .ok r →
      env.labelsResp.isOk = true ∧ env.profileResp.isOk = true ∧
        env.messagesResp.isOk = true ∧
        ∃ ids, get_message_list env = .ok ids ∧
          ∀ id ∈ ids, (env.detailResp id).isOk = true) ∧
    (∀ ids j e, get_message_list env = .ok ids →
      (get_labels env).isOk = true → (get_profile env).isOk = true →
      (∀ i, i < ids.length → i ∈ ord2) →
      ∀ hj : j < ids.length, env.detailResp (ids.get ⟨j, hj⟩) = .error e →
      (∀ k, ∀ hk : k < ids.length, k ≠ j →
        (env.detailResp (ids.get ⟨k, hk⟩)).isOk = true) →
      fetch_gmail_data_async tz env ord1 ord2 = .error e) := by
  constructor
  · intro r h
    unfold fetch_gmail_data_async at h
    obtain ⟨⟨labels, profile, ids⟩, h1, h2⟩ := (exceptBind_ok _ _ _).mp h
    obtain ⟨hl, hp, hm⟩ := gather3_ok _ _ _ _ _ _ _ h1
    obtain ⟨details, h3, h4⟩ := (exceptBind_ok _ _ _).mp h2
    have htasks := gatherList_ok _ _ _ h3
    refine ⟨?_, ?_, ?_, ids, hm, ?_⟩
    · unfold get_labels at hl
      obtain ⟨data, hd, _⟩ := (exceptBind_ok _ _ _).mp hl
      rw [hd]
      rfl
    · unfold get_profile at hp
      rw [hp]
      rfl
    · unfold get_message_list at hm
      obtain ⟨data, hd, _⟩ := (exceptBind_ok _ _ _).mp hm
      rw [hd]
      rfl
    · intro id hid
      have hmem : env.detailResp id ∈ ids.map env.detailResp :=
        List.mem_map_of_mem _ hid
      rw [htasks] at hmem
      obtain ⟨d, _, hdq⟩ := List.mem_map.mp hmem
      rw [← hdq]
      rfl
  · intro ids j e hids hl hp hcov hj hjerr hothers
    obtain ⟨labels, hl2⟩ : ∃ a, get_labels env = .ok a := by
      cases hx : get_labels env with
      | error e2 =>
        rw [hx] at hl
        simp [Except.isOk, Except.toBool] at hl
      | ok a => exact ⟨a, rfl⟩
    obtain ⟨profile, hp2⟩ : ∃ a, get_profile env = .ok a := by
      cases hx : get_profile env with
      | error e2 =>
        rw [hx] at hp
        simp [Except.isOk, Except.toBool] at hp
      | ok a => exact ⟨a, rfl⟩
    unfold fetch_gmail_data_async
    rw [gather3_all_ok ord1 _ _ _ _ _ _ hl2 hp2 hids, exceptBind_ok_left]
    dsimp only
    have hjq : (ids.map env.detailResp).get? j = some (.error e) := by
      rw [List.get?_map, List.get?_eq_get hj]
      simp only [Option.map]
      rw [hjerr]
    have hoth : ∀ k, k ≠ j → ∀ t, (ids.map env.detailResp).get? k = some t →
        t.isOk = true := by
      intro k hk t ht
      rw [List.get?_map] at ht
      cases hik : ids.get? k with
      | none =>
        rw [hik] at ht
        cases ht
      | some idv =>
        rw [hik] at ht
        simp only [Option.map] at ht
        cases ht
        obtain ⟨hlen, hval⟩ := List.get?_eq_some.mp hik
        rw [← hval]
        exact hothers k hlen hk
    rw [gatherList_single_error ord2 (ids.map env.detailResp) j e hjq (hcov j hj) hoth]
    rfl

/-- C4: a successful orchestration carries one record per fetched
message id: the details align index by index with the phase-1 id list
(so do the parsed records), and the email sequence has exactly the length
of the id list, for every completion order of the underlying fetches. -/
theorem c4_order_preserved (tz : Int) (env : GmailEnv) (ord1 ord2 : List Nat)
    (r : FetchResult) (h : fetch_gmail_data_async tz env ord1 ord2 = .ok r) :
    ∃ (ids : List JVal) (ds : List JVal), get_message_list env = .ok ids ∧
      ids.map env.detailResp = ds.map Except.ok ∧
      ds.map (parse_message tz) = r.emails.map Except.ok ∧
      r.emails.length = ids.length := by
  unfold fetch_gmail_data_async at h
  obtain ⟨⟨labels, profile, ids⟩, h1, h2⟩ := (exceptBind_ok _ _ _).mp h
  obtain ⟨hl, hp, hm⟩ := gather3_ok _ _ _ _ _ _ _ h1
  dsimp only at h2
  obtain ⟨ds, h3, h4⟩ := (exceptBind_ok _ _ _).mp h2
  have hdetails := gatherList_ok _ _ _ h3
  obtain ⟨parsed, h5, h6⟩ := (exceptBind_ok _ _ _).mp h4
  rw [exceptPure_ok] at h6
  have hparse := map_liftPy_ok tz ds parsed (mapM_ok_map _ _ _ h5)
  refine ⟨ids, ds, hm, hdetails, ?_, ?_⟩
  · rw [← h6]
    exact hparse
  · have e1 : ids.length = ds.length := by
      have := congrArg List.length hdetails
      simpa using this
    have e2 : ds.length = parsed.length := by
      have := congrArg List.length hparse
      simpa using this
    rw [← h6]
    simp only []
    omega

/-- C3 witness: three message ids m1, m2, m3; the detail fetch for m2
fails with HTTP 500 while every other request succeeds; the orchestrator
reports exactly that error and returns no FetchResult. -/
theorem c3_witness :
    fetch_gmail_data_async 0
      { labelsResp := .ok (.obj [("labels", .arr [.obj [("name", .str "INBOX")]])]),
        profileResp := .ok (.obj [("emailAddress", .str "me@example.com")]),
        messagesResp := .ok (.obj [("messages", .arr [
          .obj [("id", .str "m1")], .obj [("id", .str "m2")], .obj [("id", .str "m3")]])]),
        detailResp := fun v =>
          match v with
          | .str s =>
            if s = "m2" then .error (.httpStatus "users/me/messages/m2" 500)
            else .ok (.obj [("id", .str s)])
          | _ => .error (.transport "users/me/messages") }
      [0, 1, 2] [0, 1, 2] = .error (.httpStatus "users/me/messages/m2" 500) :=
  (c3_failfast 0
    { labelsResp := .ok (.obj [("labels", .arr [.obj [("name", .str "INBOX")]])]),
      profileResp := .ok (.obj [("emailAddress", .str "me@example.com")]),
      messagesResp := .ok (.obj [("messages", .arr [
        .obj [("id", .str "m1")], .obj [("id", .str "m2")], .obj [("id", .str "m3")]])]),
      detailResp := fun v =>
        match v with
        | .str s =>
          if s = "m2" then .error (.httpStatus "users/me/messages/m2" 500)
          else .ok (.obj [("id", .str s)])
        | _ => .error (.transport "users/me/messages") }
    [0, 1, 2] [0, 1, 2]).2
    [.str "m1", .str "m2", .str "m3"] 1 (.httpStatus "users/me/messages/m2" 500)
    (by rfl) (by rfl) (by rfl) (by decide) (by decide) (by rfl) (by decide)

/-- C4 witness: two message ids fetched with the phase-2 completion order
reversed still produce the email records in id order m1, m2. -/
theorem c4_witness :
    ∃ (ids : List JVal) (ds : List JVal),
      get_message_list
        { labelsResp := .ok (.obj [("labels", .arr [])]),
          profileResp := .ok (.obj [("emailAddress", .str "me@example.com")]),
          messagesResp := .ok (.obj [("messages", .arr [
            .obj [("id", .str "m1")], .obj [("id", .str "m2")]])]),
          detailResp := fun v =>
            match v with
            | .str s => .ok (.obj [("id", .str s)])
            | _ => .error (.transport "users/me/messages") } = .ok ids ∧
      ids.map
        (GmailEnv.detailResp
          { labelsResp := .ok (.obj [("labels", .arr [])]),
            profileResp := .ok (.obj [("emailAddress", .str "me@example.com")]),
            messagesResp := .ok (.obj [("messages", .arr [
              .obj [("id", .str "m1")], .obj [("id", .str "m2")]])]),
            detailResp := fun v =>
              match v with
              | .str s => .ok (.obj [("id", .str s)])
              | _ => .error (.transport "users/me/messages") }) = ds.map Except.ok ∧
      ds.map (parse_message 0) =
        ({ labels := .arr [], profile := .obj [("emailAddress", .str "me@example.com")],
           emails := [
             { messageId := .str "m1", threadId := .str "", messageTimestamp := "",
               labelIds := .arr [], sender := .str "", subject := .str "",
               messageText := "" },
             { messageId := .str "m2", threadId := .str "", messageTimestamp := "",
               labelIds := .arr [], sender := .str "", subject := .str "",
               messageText := "" }] } : FetchResult).emails.map Except.ok ∧
      ({ labels := .arr [], profile := .obj [("emailAddress", .str "me@example.com")],
         emails := [
           { messageId := .str "m1", threadId := .str "", messageTimestamp := "",
             labelIds := .arr [], sender := .str "", subject := .str "",
             messageText := "" },
           { messageId := .str "m2", threadId := .str "", messageTimestamp := "",
             labelIds := .arr [], sender := .str "", subject := .str "",
             messageText := "" }] } : FetchResult).emails.length = ids.length :=
  c4_order_preserved 0
    { labelsResp := .ok (.obj [("labels", .arr [])]),
      profileResp := .ok (.obj [("emailAddress", .str "me@example.com")]),
      messagesResp := .ok (.obj [("messages", .arr [
        .obj [("id", .str "m1")], .obj [("id", .str "m2")]])]),
      detailResp := fun v =>
        match v with
        | .str s => .ok (.obj [("id", .str s)])
        | _ => .error (.transport "users/me/messages") }
    [0, 1, 2] [1, 0]
    { labels := .arr [], profile := .obj [("emailAddress", .str "me@example.com")],
      emails := [
        { messageId := .str "m1", threadId := .str "", messageTimestamp := "",
          labelIds := .arr [], sender := .str "", subject := .str "",
          messageText := "" },
        { messageId := .str "m2", threadId := .str "", messageTimestamp := "",
          labelIds := .arr [], sender := .str "", subject := .str "",
          messageText := "" }] }
    (by rfl)
